import Mathlib

/-!
Verification development for the Astralite optimiser (kateberly/Astralite).

The Python sources under `astralite_optimizer/` and `app.py` are shallowly
embedded below.  Python `float` values are idealised as exact rationals, with
`math.inf` modelled by the formal element `XQ.inf` satisfying `inf + x = inf`
and `inf * q = inf`; IEEE rounding and NaN corner cases are outside the model.
Python `dict`s are modelled as association lists with insertion-order
preserving update, matching CPython semantics.  The recursion of
`ProductionCalculator._compute_profile` is bounded by a fuel parameter; the
in-progress stack makes chains of recursive calls pairwise distinct sale
items, so fuel `sale_items.length + 1` is never exhausted.
-/

namespace Astralite

/-- Extended rationals: the value space for facility minutes
(Python floats together with `math.inf`). -/
inductive XQ where
  | fin : ℚ → XQ
  | inf : XQ
deriving DecidableEq

/-- Addition on extended rationals (`inf` absorbs). -/
def XQ.add : XQ → XQ → XQ
  | XQ.fin a, XQ.fin b => XQ.fin (a + b)
  | _, _ => XQ.inf

/-- Scaling an extended rational by a rational (`inf` stays `inf`). -/
def XQ.smul : XQ → ℚ → XQ
  | XQ.fin a, q => XQ.fin (a * q)
  | XQ.inf, _ => XQ.inf

/-- Strict positivity test, as in Python comparisons `v > 0`
(where `math.inf > 0` holds). -/
def XQ.pos : XQ → Bool
  | XQ.fin a => decide (0 < a)
  | XQ.inf => true

/-- Non-negativity test (`math.inf >= 0` holds). -/
def XQ.nonneg : XQ → Bool
  | XQ.fin a => decide (0 ≤ a)
  | XQ.inf => true

/-- Sum of a list of extended rationals. -/
def csum (l : List XQ) : XQ := l.foldr XQ.add (XQ.fin 0)

/-! ### Association lists: the model of Python `dict`

`aset` mirrors CPython dictionary assignment: an existing key keeps its
position and gets the new value, a fresh key is appended at the end. -/

/-- First-match lookup in an association list. -/
def aget {κ α : Type} [DecidableEq κ] : List (κ × α) → κ → Option α
  | [], _ => none
  | kv :: rest, key => if kv.1 = key then some kv.2 else aget rest key

/-- Lookup with a default, Python `d.get(k, dflt)`. -/
def agetD {κ α : Type} [DecidableEq κ] (d : List (κ × α)) (key : κ) (dflt : α) : α :=
  (aget d key).getD dflt

/-- Python `d[k] = v`: replace in place if present, append otherwise. -/
def aset {κ α : Type} [DecidableEq κ] (d : List (κ × α)) (key : κ) (val : α) : List (κ × α) :=
  if (aget d key).isSome then
    d.map (fun kv => if kv.1 = key then (key, val) else kv)
  else d ++ [(key, val)]

/-- The keys of an association list. -/
def akeys {κ α : Type} (d : List (κ × α)) : List κ := d.map Prod.fst

/-- Key uniqueness, the invariant every real Python dict has. -/
def NodupKeys {κ α : Type} (d : List (κ × α)) : Prop := (akeys d).Nodup

/-! ### Constants and free-text number parsing (`production.py`) -/

/-- `PLANT_FACILITY` from `production.py`. -/
def PLANT_FACILITY : String := "plant_plot"

/-- `FISH_FACILITY` from `production.py`. -/
def FISH_FACILITY : String := "fish_pond"

/-- `CRAFT_FACILITY` from `production.py`. -/
def CRAFT_FACILITY : String := "crafting"

/-- `WEEK_MINUTES = 7 * 24 * 60` from `production.py`. -/
def WEEK_MINUTES : ℕ := 7 * 24 * 60

/-- Value of a digit run read as a natural number. -/
def digitsToNat (l : List Char) : ℕ :=
  l.foldl (fun acc c => acc * 10 + (c.toNat - 48)) 0

/-- Split a maximal leading run of decimal digits from a character list. -/
def takeDigits : List Char → List Char × List Char
  | [] => ([], [])
  | c :: cs =>
      if c.isDigit then
        let r := takeDigits cs
        (c :: r.1, r.2)
      else ([], c :: cs)

/-- One matched number of the regex `\d+(?:\.\d+)?`: integer digits already
consumed, then an optional fractional part. -/
def fracValue (intDigits : List Char) : List Char → ℚ × List Char
  | '.' :: c :: cs =>
      if c.isDigit then
        let r := takeDigits (c :: cs)
        ((digitsToNat intDigits : ℚ) + (digitsToNat r.1 : ℚ) / (10 : ℚ) ^ r.1.length, r.2)
      else ((digitsToNat intDigits : ℚ), '.' :: c :: cs)
  | rest => ((digitsToNat intDigits : ℚ), rest)

/-- Fuel-bounded scan for `_parse_numbers`: leftmost, non-overlapping matches
of `\d+(?:\.\d+)?`.  The fuel starts at the input length and each step
consumes at least one character, so exhaustion is unreachable. -/
def parseNumbersAux : ℕ → List Char → List ℚ
  | 0, _ => []
  | _ + 1, [] => []
  | fuel + 1, c :: cs =>
      if c.isDigit then
        let r := takeDigits (c :: cs)
        let fr := fracValue r.1 r.2
        fr.1 :: parseNumbersAux fuel fr.2
      else parseNumbersAux fuel cs

/-- `_parse_numbers(text)`: every decimal number occurring in the text. -/
def parseNumbers (text : String) : List ℚ :=
  parseNumbersAux text.data.length text.data

/-- `_parse_average(text, fallback)`: the mean of the parsed numbers,
or the fallback when none are found. -/
def parseAverage (text : String) (fallback : ℚ) : ℚ :=
  let numbers := parseNumbers text
  if numbers = [] then fallback else numbers.sum / numbers.length

/-! ### Localisation (`localization.py`), restricted to the flattened map -/

/-- The flattened English localisation dictionary. -/
structure Localization where
  flat : List (String × String)

/-- `Localization.get(key)`. -/
def Localization.get (loc : Localization) (key : String) : Option String :=
  aget loc.flat key

/-- `Localization.item_name(item_id)` with the synthesised fallback label. -/
def Localization.item_name (loc : Localization) (item_id : ℕ) : String :=
  (aget loc.flat ("ItemName_" ++ toString item_id)).getD ("Item " ++ toString item_id)

/-- Python `str.lower()`, character by character (the names in the fish
datasets are ASCII, where this matches exactly). -/
def strLower (s : String) : String := String.mk (s.data.map Char.toLower)

/-! ### Data records (`production.py`) -/

/-- `SaleItem` dataclass. -/
structure SaleItem where
  item_id : ℕ
  ability_id : ℤ
  ability_level : ℤ
  sale_value : ℚ
  sale_ratio : ℚ
  name : String
  category : String
deriving DecidableEq

/-- `PlantGrowth` dataclass. -/
structure PlantGrowth where
  seed_id : ℕ
  harvest_item_id : ℕ
  growth_time_sec : ℤ
  accelerated_time_sec : ℤ
  average_yield : ℚ
  farmland_ids : List ℕ
deriving DecidableEq

/-- `PlantGrowth.cycle_minutes`. -/
def PlantGrowth.cycle_minutes (g : PlantGrowth) : ℚ :=
  (g.accelerated_time_sec : ℚ) / 60

/-- `PlantGrowth.minutes_per_item`: `inf` for a non-positive yield. -/
def PlantGrowth.minutes_per_item (g : PlantGrowth) : XQ :=
  if g.average_yield ≤ 0 then XQ.inf else XQ.fin (g.cycle_minutes / g.average_yield)

/-- `FishGrowth` dataclass (`yield_per_cycle` defaults to 1). -/
structure FishGrowth where
  fry_id : ℕ
  fish_id : ℕ
  growth_time_sec : ℤ
  accelerated_time_sec : ℤ
  name : String
  yield_per_cycle : ℚ := 1
deriving DecidableEq

/-- `FishGrowth.cycle_minutes`. -/
def FishGrowth.cycle_minutes (g : FishGrowth) : ℚ :=
  (g.accelerated_time_sec : ℚ) / 60

/-- `FishGrowth.minutes_per_item`. -/
def FishGrowth.minutes_per_item (g : FishGrowth) : XQ :=
  if g.yield_per_cycle ≤ 0 then XQ.inf else XQ.fin (g.cycle_minutes / g.yield_per_cycle)

/-- `MaterialRequirement` dataclass. -/
structure MaterialRequirement where
  item_id : ℕ
  quantity : ℚ
deriving DecidableEq

/-! ### Growth-table loading (`_load_plant_growth`, `_load_fish_growth`) -/

/-- One entry of `TbPlantingNutrient` / `TbHomeFishNutrientConfig`:
consumption count and speed-up seconds. -/
structure NutrientEntry where
  consume_count : ℤ
  speedup_time : ℤ
deriving DecidableEq

/-- The default speed-up: the `speedup_time` of the first nutrient entry whose
`consume_count` is zero, or 0 when there is none. -/
def defaultSpeedup : List NutrientEntry → ℤ
  | [] => 0
  | n :: rest => if n.consume_count = 0 then n.speedup_time else defaultSpeedup rest

/-- One entry of `TbPlantingGrowthProcess`, restricted to the consumed fields:
stage durations stand for `growth_stages[*].duration`. -/
structure RawPlantEntry where
  seed : ℕ
  harvest_item : ℕ
  stage_durations : List ℤ
  estimate_harvests : String
  compatible_farmland : List ℕ
deriving DecidableEq

/-- `_load_plant_growth`, keyed by harvest item id.  The accelerated time is
clamped below at zero: `max(0, growth_time_sec - default_speedup)`. -/
def loadPlantGrowth (entries : List RawPlantEntry) (nutrients : List NutrientEntry) :
    List (ℕ × PlantGrowth) :=
  let sp := defaultSpeedup nutrients
  entries.foldl
    (fun acc e =>
      if e.harvest_item = 0 then acc
      else
        let growth := e.stage_durations.sum
        aset acc e.harvest_item
          ⟨e.seed, e.harvest_item, growth, max 0 (growth - sp),
            parseAverage e.estimate_harvests 1, e.compatible_farmland⟩)
    []

/-- One entry of `TbHomeFishGrowthConfig`, restricted to the consumed fields. -/
structure RawFishEntry where
  fry_id : ℕ
  fish_id : ℕ
  growth_time : ℤ
deriving DecidableEq

/-- First stage of `_load_fish_growth`: fish growth keyed by lower-cased
localised display name (entries without a non-empty localised name are
dropped, as `if not name: continue` does). -/
def fishByName (entries : List RawFishEntry) (nutrients : List NutrientEntry)
    (loc : Localization) : List (String × FishGrowth) :=
  let sp := defaultSpeedup nutrients
  entries.foldl
    (fun acc e =>
      match loc.get ("FISH_" ++ toString e.fish_id) with
      | none => acc
      | some nm =>
          if nm = "" then acc
          else
            aset acc (strLower nm)
              ⟨e.fry_id, e.fish_id, e.growth_time, max 0 (e.growth_time - sp), nm, 1⟩)
    []

/-- `_load_fish_growth`: map the by-name growth table onto sale item ids of
fish-category sale items via their lower-cased names. -/
def loadFishGrowth (entries : List RawFishEntry) (nutrients : List NutrientEntry)
    (loc : Localization) (sale_items : List (ℕ × SaleItem)) : List (ℕ × FishGrowth) :=
  let by_name := fishByName entries nutrients loc
  sale_items.foldl
    (fun acc kv =>
      if kv.2.category = "fish" then
        match aget by_name (strLower kv.2.name) with
        | some g => aset acc kv.2.item_id g
        | none => acc
      else acc)
    []

/-! ### Production profiles (`production.py`) -/

/-- Facility-minutes dictionary: facility name to per-unit minutes. -/
abbrev FacDict := List (String × XQ)

/-- `ComponentRequirement`, generic in the profile type so that
`ProductionProfile` can nest it. -/
structure ComponentRequirementG (P : Type) where
  item_id : ℕ
  name : String
  quantity : ℚ
  profile : Option P
  exchange_cost : Option ℤ

/-- `ProductionProfile` dataclass: the central entity.  `components` is
non-empty only for furniture. -/
inductive ProductionProfile where
  | mk
      (item_id : ℕ)
      (name : String)
      (sale_value : ℚ)
      (ability_id : ℤ)
      (ability_level : ℤ)
      (category : String)
      (facility_minutes : FacDict)
      (components : List (ComponentRequirementG ProductionProfile))
      (notes : List String)

/-- A component requirement holding a fully resolved profile (or none). -/
abbrev ComponentRequirement := ComponentRequirementG ProductionProfile

/-- Projection: item id. -/
def ProductionProfile.item_id : ProductionProfile → ℕ
  | .mk i _ _ _ _ _ _ _ _ => i

/-- Projection: display name. -/
def ProductionProfile.name : ProductionProfile → String
  | .mk _ n _ _ _ _ _ _ _ => n

/-- Projection: sale value. -/
def ProductionProfile.sale_value : ProductionProfile → ℚ
  | .mk _ _ s _ _ _ _ _ _ => s

/-- Projection: gating ability id. -/
def ProductionProfile.ability_id : ProductionProfile → ℤ
  | .mk _ _ _ a _ _ _ _ _ => a

/-- Projection: gating ability level. -/
def ProductionProfile.ability_level : ProductionProfile → ℤ
  | .mk _ _ _ _ l _ _ _ _ => l

/-- Projection: category. -/
def ProductionProfile.category : ProductionProfile → String
  | .mk _ _ _ _ _ c _ _ _ => c

/-- Projection: facility minutes dictionary. -/
def ProductionProfile.facility_minutes : ProductionProfile → FacDict
  | .mk _ _ _ _ _ _ f _ _ => f

/-- Projection: component list. -/
def ProductionProfile.components : ProductionProfile → List ComponentRequirement
  | .mk _ _ _ _ _ _ _ cs _ => cs

/-- Projection: notes. -/
def ProductionProfile.notes : ProductionProfile → List String
  | .mk _ _ _ _ _ _ _ _ ns => ns

/-- The profile cache (`self._profile_cache`). -/
abbrev Cache := List (ℕ × ProductionProfile)

/-- The loaded state of a `ProductionCalculator`: every dataset the builders
consult, after `__init__` has run. -/
structure CalcData where
  localization : Localization
  sale_items : List (ℕ × SaleItem)
  plant_growth : List (ℕ × PlantGrowth)
  fish_growth : List (ℕ × FishGrowth)
  furniture_recipes : List (ℕ × List MaterialRequirement)
  furniture_time : List (ℕ × ℚ)
  exchange_costs : List (ℕ × ℤ)

/-- `_build_basic_profile`: empty facility minutes plus an explanatory note. -/
def buildBasicProfile (sale : SaleItem) : ProductionProfile :=
  ProductionProfile.mk sale.item_id sale.name sale.sale_value sale.ability_id
    sale.ability_level sale.category [] []
    ["Production data for " ++ sale.category ++ " items is not yet modelled."]

/-- `_build_plant_profile`: plant-plot minutes from the growth table, or a
note when the growth data is missing. -/
def buildPlantProfile (c : CalcData) (sale : SaleItem) : ProductionProfile :=
  match aget c.plant_growth sale.item_id with
  | some growth =>
      ProductionProfile.mk sale.item_id sale.name sale.sale_value sale.ability_id
        sale.ability_level sale.category [(PLANT_FACILITY, growth.minutes_per_item)] [] []
  | none =>
      ProductionProfile.mk sale.item_id sale.name sale.sale_value sale.ability_id
        sale.ability_level sale.category [] []
        ["No planting data available; timing estimates missing."]

/-- `_build_fish_profile`: fish-pond minutes from the growth table, or a note
when the growth data is missing. -/
def buildFishProfile (c : CalcData) (sale : SaleItem) : ProductionProfile :=
  match aget c.fish_growth sale.item_id with
  | some growth =>
      ProductionProfile.mk sale.item_id sale.name sale.sale_value sale.ability_id
        sale.ability_level sale.category [(FISH_FACILITY, growth.minutes_per_item)] [] []
  | none =>
      ProductionProfile.mk sale.item_id sale.name sale.sale_value sale.ability_id
        sale.ability_level sale.category [] []
        ["No fish growth data available; timing estimates missing."]

/-- Accumulate a component profile's facility minutes, scaled by the required
quantity, into the facility accumulator (the inner loop of
`_build_furniture_profile`). -/
def addScaled (acc : FacDict) (src : FacDict) (q : ℚ) : FacDict :=
  src.foldl (fun a kv => aset a kv.1 (XQ.add (agetD a kv.1 (XQ.fin 0)) (XQ.smul kv.2 q))) acc

/-- The per-material loop of `_build_furniture_profile`: resolve each
material's profile through `recur`, record a `ComponentRequirement`, and add
its facility minutes scaled by the quantity. -/
def furnitureFold (c : CalcData) (recur : Cache → List ℕ → ℕ → Option ProductionProfile × Cache)
    (stack : List ℕ) : List MaterialRequirement → Cache → FacDict →
      List ComponentRequirement → FacDict × List ComponentRequirement × Cache
  | [], cache, fm, comps => (fm, comps, cache)
  | m :: rest, cache, fm, comps =>
      let rc := recur cache stack m.item_id
      let comp : ComponentRequirement :=
        ⟨m.item_id, c.localization.item_name m.item_id, m.quantity, rc.1,
          aget c.exchange_costs m.item_id⟩
      let fm2 := match rc.1 with
        | some q => addScaled fm q.facility_minutes m.quantity
        | none => fm
      furnitureFold c recur stack rest rc.2 fm2 (comps ++ [comp])

/-- `_build_furniture_profile`: start from the item's own craft time under the
crafting facility, then fold in every material requirement. -/
def buildFurnitureProfile (c : CalcData)
    (recur : Cache → List ℕ → ℕ → Option ProductionProfile × Cache)
    (cache : Cache) (stack : List ℕ) (sale : SaleItem) : ProductionProfile × Cache :=
  let materials := agetD c.furniture_recipes sale.item_id []
  let initMinutes : FacDict := [(CRAFT_FACILITY, XQ.fin (agetD c.furniture_time sale.item_id 0))]
  let notes : List String :=
    if materials.isEmpty then ["Furniture recipe not found in extracted data."] else []
  let st := furnitureFold c recur stack materials cache initMinutes []
  (ProductionProfile.mk sale.item_id sale.name sale.sale_value sale.ability_id
      sale.ability_level sale.category st.1 st.2.1 notes,
    st.2.2)

/-- The category dispatch of `_compute_profile`: which builder runs for a
resolved sale item (the stack already extended by the item for the recursive
furniture case). -/
def buildDispatch (c : CalcData)
    (recur : Cache → List ℕ → ℕ → Option ProductionProfile × Cache)
    (cache : Cache) (stack : List ℕ) (item_id : ℕ) (sale : SaleItem) :
    ProductionProfile × Cache :=
  if sale.category = "plant" then (buildPlantProfile c sale, cache)
  else if sale.category = "fish" then (buildFishProfile c sale, cache)
  else if sale.category = "furniture" then
    buildFurnitureProfile c recur cache (item_id :: stack) sale
  else (buildBasicProfile sale, cache)

/-- `_compute_profile(item_id, stack)`, with a structural fuel parameter.
Each recursion level consumes one unit of fuel; the in-progress stack makes
the items of any chain of nested calls pairwise distinct sale items, so with
initial fuel `sale_items.length + 1` the zero-fuel branch is unreachable. -/
def computeProfileFuel (c : CalcData) : ℕ → Cache → List ℕ → ℕ →
    Option ProductionProfile × Cache
  | 0, cache, _, _ => (none, cache)
  | fuel + 1, cache, stack, item_id =>
      match aget cache item_id with
      | some p => (some p, cache)
      | none =>
          if item_id ∈ stack then (none, cache)
          else
            match aget c.sale_items item_id with
            | none => (none, cache)
            | some sale =>
                let pc : ProductionProfile × Cache :=
                  buildDispatch c (computeProfileFuel c fuel) cache stack item_id sale
                (some pc.1, aset pc.2 item_id pc.1)

/-- `compute_profile(item_id)`: entry point with an empty stack, threading the
calculator's memo cache explicitly. -/
def computeProfile (c : CalcData) (cache : Cache) (item_id : ℕ) :
    Option ProductionProfile × Cache :=
  computeProfileFuel c (c.sale_items.length + 1) cache [] item_id

/-- The facility-minutes contribution of one component to its importing
furniture item: its resolved profile's per-unit minutes at the facility,
scaled by the required quantity (0 for an unresolved component). -/
def compContrib (f : String) (comp : ComponentRequirement) : XQ :=
  match comp.profile with
  | some q => XQ.smul (agetD q.facility_minutes f (XQ.fin 0)) comp.quantity
  | none => XQ.fin 0

/-- The additive furniture invariant: at every facility, the profile's
minutes are the item's own craft time (under the crafting facility, 0
elsewhere) plus the sum of its components' scaled contributions. -/
def FurnInv (c : CalcData) (p : ProductionProfile) : Prop :=
  ∀ f : String, agetD p.facility_minutes f (XQ.fin 0)
    = XQ.add
        (if f = CRAFT_FACILITY then XQ.fin (agetD c.furniture_time p.item_id 0)
          else XQ.fin 0)
        (csum (p.components.map (compContrib f)))

/-- Well-formedness of a computed profile: unique facility keys, and the
additive invariant when the profile is furniture. -/
def ProfileWF (c : CalcData) (p : ProductionProfile) : Prop :=
  NodupKeys p.facility_minutes ∧ (p.category = "furniture" → FurnInv c p)

/-- Every cached profile is well-formed (holds for the empty cache and is
preserved by every `compute_profile` call). -/
def CacheWF (c : CalcData) (cache : Cache) : Prop := ∀ kv ∈ cache, ProfileWF c kv.2

/-- Non-negativity of every facility-minutes value of a profile. -/
def ProfileNonneg (p : ProductionProfile) : Prop :=
  ∀ kv ∈ p.facility_minutes, kv.2.nonneg = true

/-- Non-negativity of every cached profile. -/
def CacheNonneg (cache : Cache) : Prop := ∀ kv ∈ cache, ProfileNonneg kv.2

/-- Non-negativity of the raw data a calculator holds: growth-derived minutes
(guaranteed by the loaders' clamping), craft times, and material
quantities. -/
def CalcNonneg (c : CalcData) : Prop :=
  (∀ kv ∈ c.plant_growth, (PlantGrowth.minutes_per_item kv.2).nonneg = true)
  ∧ (∀ kv ∈ c.fish_growth, (FishGrowth.minutes_per_item kv.2).nonneg = true)
  ∧ (∀ kv ∈ c.furniture_time, 0 ≤ kv.2)
  ∧ (∀ kv ∈ c.furniture_recipes, ∀ m ∈ kv.2, 0 ≤ m.quantity)

/-- The sale-item ids that are not currently on the in-progress stack: an
upper bound on how much deeper the recursive resolution can nest.  Used to
show the fuel parameter of `computeProfileFuel` is never exhausted. -/
def freeKeys (c : CalcData) (stack : List ℕ) : Finset ℕ :=
  ((c.sale_items.map Prod.fst).toFinset).filter (· ∉ stack)

/-! ### Progression repository (`progression.py`) -/

/-- `TotalLevelBonus` dataclass. -/
structure TotalLevelBonus where
  level : ℤ
  weekly_bonus : ℤ
deriving DecidableEq

instance : DecidableRel (fun a b : TotalLevelBonus => a.level ≤ b.level) :=
  fun a b => inferInstanceAs (Decidable (a.level ≤ b.level))

instance : IsTotal TotalLevelBonus (fun a b => a.level ≤ b.level) :=
  ⟨fun a b => le_total a.level b.level⟩

instance : IsTrans TotalLevelBonus (fun a b => a.level ≤ b.level) :=
  ⟨fun _ _ _ h1 h2 => le_trans h1 h2⟩

/-- The `__init__` step for the total-level table: sort ascending by level
(Python's sort is stable; ties never arise in meaningful tables). -/
def sortBonuses (l : List TotalLevelBonus) : List TotalLevelBonus :=
  l.insertionSort (fun a b => a.level ≤ b.level)

/-- The loop of `weekly_bonus_for_total_level`: walk the sorted tiers, keep
the bonus of every tier at or below the total, break at the first above. -/
def weeklyBonusLoop (total : ℤ) : List TotalLevelBonus → ℤ → ℤ
  | [], bonus => bonus
  | e :: rest, bonus =>
      if total < e.level then bonus else weeklyBonusLoop total rest e.weekly_bonus

/-- `weekly_bonus_for_total_level(total)` on a repository built from the raw
tier list. -/
def weeklyBonusForTotalLevel (tiers : List TotalLevelBonus) (total : ℤ) : ℤ :=
  weeklyBonusLoop total (sortBonuses tiers) 0

/-! ### Portfolio optimizer (`optimizer.py`) -/

/-- `OptimizedItem` dataclass. -/
structure OptimizedItem where
  item_id : ℕ
  name : String
  units : ℚ
  astralite : ℚ
  multiplier : ℚ
  facility_minutes : FacDict
  profile : ProductionProfile

/-- `OptimizationResult` dataclass. -/
structure OptimizationResult where
  items : List OptimizedItem
  total_astralite : ℚ
  facility_usage : FacDict
  status : String

/-- The linear programme handed to the solver: objective coefficients per
variable (keyed by item id) and `≤`-constraints. -/
structure LpProblemData where
  objective : List (ℚ × ℕ)
  constraints : List (List (XQ × ℕ) × ℚ)

/-- A solver for the embedded LP: status code plus a value per variable
(the `.value() or 0.0` of `optimise_portfolio`). -/
abbrev LpSolver := LpProblemData → ℤ × (ℕ → ℚ)

/-- `pulp.LpStatus` lookup with fallback `str(status_code)`. -/
def lpStatusString (code : ℤ) : String :=
  if code = 0 then "Not Solved"
  else if code = 1 then "Optimal"
  else if code = -1 then "Infeasible"
  else if code = -2 then "Unbounded"
  else if code = -3 then "Undefined"
  else toString code

/-- `item_multiplier`: 1.2 for ids in the bonus set, 1.0 otherwise. -/
def itemMultiplier (bonus_item_ids : List ℕ) (p : ProductionProfile) : ℚ :=
  if p.item_id ∈ bonus_item_ids then 6 / 5 else 1

/-- `item_value`: sale value weighted by the bonus multiplier. -/
def itemValue (bonus_item_ids : List ℕ) (p : ProductionProfile) : ℚ :=
  p.sale_value * itemMultiplier bonus_item_ids p

/-- `ordered_profiles`: the profiles whose item id owns an LP variable, i.e.
some profile with that id has a positive sale value. -/
def orderedProfiles (profiles : List ProductionProfile) : List ProductionProfile :=
  profiles.filter
    (fun p => profiles.any (fun q => q.item_id == p.item_id && decide (0 < q.sale_value)))

/-- The facility-capacity constraints (skipping non-positive capacities)
followed by the weekly Astralite cap constraint. -/
def portfolioConstraints (ordered : List ProductionProfile)
    (capacities : List (String × ℚ)) (bonus_item_ids : List ℕ) (weekly_limit : ℚ) :
    List (List (XQ × ℕ) × ℚ) :=
  (capacities.filterMap
    (fun fc =>
      if fc.2 ≤ 0 then none
      else
        some
          (ordered.map (fun p => (agetD p.facility_minutes fc.1 (XQ.fin 0), p.item_id)),
            fc.2)))
  ++ [(ordered.map (fun p => (XQ.fin (itemValue bonus_item_ids p), p.item_id)), weekly_limit)]

/-- The full problem formulation passed to the solver. -/
def portfolioProblem (profiles : List ProductionProfile) (weekly_limit : ℚ)
    (capacities : List (String × ℚ)) (bonus_item_ids : List ℕ) : LpProblemData :=
  let ordered := orderedProfiles profiles
  ⟨ordered.map (fun p => (itemValue bonus_item_ids p, p.item_id)),
    portfolioConstraints ordered capacities bonus_item_ids weekly_limit⟩

/-- The per-unit usage dictionary of a selected item: the profile's strictly
positive facility minutes scaled by the solved quantity. -/
def scalePos (d : FacDict) (v : ℚ) : FacDict :=
  d.filterMap (fun kv => if kv.2.pos then some (kv.1, XQ.smul kv.2 v) else none)

/-- Add every entry of an item's usage dictionary into the running facility
usage (`facility_usage.get(facility, 0.0) + amount`). -/
def addUsage (usage : FacDict) (iusage : FacDict) : FacDict :=
  iusage.foldl (fun u kv => aset u kv.1 (XQ.add (agetD u kv.1 (XQ.fin 0)) kv.2)) usage

/-- The post-solve loop of `optimise_portfolio` over the ordered profiles:
skip near-zero quantities, build each `OptimizedItem`, and accumulate the
facility usage and the total Astralite. -/
def optItemsLoop (bonus_item_ids : List ℕ) (vals : ℕ → ℚ) :
    List ProductionProfile → List OptimizedItem → FacDict → ℚ →
      List OptimizedItem × FacDict × ℚ
  | [], items, usage, total => (items, usage, total)
  | p :: rest, items, usage, total =>
      let v := vals p.item_id
      if v ≤ 1 / 1000000 then optItemsLoop bonus_item_ids vals rest items usage total
      else
        let mult := itemMultiplier bonus_item_ids p
        let astr := itemValue bonus_item_ids p * v
        let iusage := scalePos p.facility_minutes v
        optItemsLoop bonus_item_ids vals rest
          (items ++ [⟨p.item_id, p.name, v, astr, mult, iusage, p⟩])
          (addUsage usage iusage) (total + astr)

instance : DecidableRel (fun a b : OptimizedItem => b.astralite ≤ a.astralite) :=
  fun a b => inferInstanceAs (Decidable (b.astralite ≤ a.astralite))

/-- `optimise_portfolio(profiles, weekly_limit, capacities, bonus_item_ids)`,
parameterised by the LP solver (PuLP/CBC in the source). -/
def optimisePortfolio (solver : LpSolver) (profiles : List ProductionProfile)
    (weekly_limit : ℚ) (capacities : List (String × ℚ)) (bonus_item_ids : List ℕ) :
    OptimizationResult :=
  if weekly_limit ≤ 0 ∨ profiles.isEmpty then ⟨[], 0, [], "No capacity"⟩
  else if (profiles.filter (fun p => decide (0 < p.sale_value))).isEmpty then
    ⟨[], 0, [], "No variables"⟩
  else
    let sres := solver (portfolioProblem profiles weekly_limit capacities bonus_item_ids)
    if sres.1 = 1 then
      let initUsage : FacDict := capacities.map (fun fc => (fc.1, XQ.fin 0))
      let st := optItemsLoop bonus_item_ids sres.2 (orderedProfiles profiles) [] initUsage 0
      ⟨st.1.insertionSort (fun a b => b.astralite ≤ a.astralite), st.2.2, st.2.1,
        lpStatusString sres.1⟩
    else ⟨[], 0, [], lpStatusString sres.1⟩

/-- The bonus-id preprocessing of the API layer (`app.py`,
`set(payload.bonus_item_ids[:4])`): only the first four are honoured. -/
def apiBonusIds (bonus_item_ids : List ℕ) : List ℕ := bonus_item_ids.take 4

/-! ### Helper lemmas: extended rationals and association lists -/

theorem XQ.add_zero (x : XQ) : XQ.add x (XQ.fin 0) = x := by
  cases x <;> simp [XQ.add]

theorem XQ.zero_add (x : XQ) : XQ.add (XQ.fin 0) x = x := by
  cases x <;> simp [XQ.add]

theorem XQ.add_assoc (x y z : XQ) :
    XQ.add (XQ.add x y) z = XQ.add x (XQ.add y z) := by
  cases x <;> cases y <;> cases z <;> simp [XQ.add]
  ring

theorem XQ.add_left_comm (x y z : XQ) :
    XQ.add x (XQ.add y z) = XQ.add y (XQ.add x z) := by
  cases x <;> cases y <;> cases z <;> simp [XQ.add]
  ring

theorem XQ.zero_smul (q : ℚ) : XQ.smul (XQ.fin 0) q = XQ.fin 0 := by
  simp [XQ.smul]

theorem XQ.add_nonneg {x y : XQ} (hx : x.nonneg = true) (hy : y.nonneg = true) :
    (XQ.add x y).nonneg = true := by
  cases x <;> cases y <;> simp_all [XQ.add, XQ.nonneg]
  positivity

theorem XQ.smul_nonneg {x : XQ} {q : ℚ} (hx : x.nonneg = true) (hq : 0 ≤ q) :
    (XQ.smul x q).nonneg = true := by
  cases x <;> simp_all [XQ.smul, XQ.nonneg]
  positivity

theorem csum_nil : csum [] = XQ.fin 0 := rfl

theorem csum_cons (x : XQ) (l : List XQ) : csum (x :: l) = XQ.add x (csum l) := rfl

theorem csum_append_singleton (l : List XQ) (x : XQ) :
    csum (l ++ [x]) = XQ.add (csum l) x := by
  induction l with
  | nil => simp [csum, XQ.add_zero, XQ.zero_add]
  | cons a t ih =>
      simp only [List.cons_append, csum_cons, ih, XQ.add_assoc]

theorem aget_mem {κ α : Type} [DecidableEq κ] {d : List (κ × α)} {key : κ} {v : α}
    (h : aget d key = some v) : (key, v) ∈ d := by
  induction d with
  | nil => simp [aget] at h
  | cons kv rest ih =>
      obtain ⟨k, a⟩ := kv
      by_cases hk : k = key
      · simp only [aget, hk, if_true, if_pos, Option.some.injEq] at h
        subst hk; subst h
        exact List.mem_cons_self _ _
      · simp only [aget, hk, if_neg, if_false] at h
        exact List.mem_cons_of_mem _ (ih h)

theorem aget_eq_none_iff {κ α : Type} [DecidableEq κ] (d : List (κ × α)) (key : κ) :
    aget d key = none ↔ key ∉ akeys d := by
  induction d with
  | nil => simp [aget, akeys]
  | cons kv rest ih =>
      obtain ⟨k, a⟩ := kv
      by_cases hk : k = key
      · simp [aget, akeys, hk]
      · simp [aget, akeys, hk, ih, Ne.symm hk]

theorem aget_map_replace {κ α : Type} [DecidableEq κ] (d : List (κ × α)) (key j : κ) (v : α)
    (hne : key ≠ j) :
    aget (d.map (fun kv => if kv.1 = key then (key, v) else kv)) j = aget d j := by
  induction d with
  | nil => rfl
  | cons kv rest ih =>
      obtain ⟨k, a⟩ := kv
      by_cases hk : k = key
      · simp only [List.map_cons, hk, if_pos, if_true]
        simp only [aget, if_neg hne, if_neg (hk ▸ hne : k ≠ j)]
        exact ih
      · simp only [List.map_cons, if_neg hk]
        by_cases hj : k = j
        · simp [aget, hj]
        · simp only [aget, if_neg hj]
          exact ih

theorem aget_aset_self {κ α : Type} [DecidableEq κ] (d : List (κ × α)) (key : κ) (v : α) :
    aget (aset d key v) key = some v := by
  unfold aset
  cases hs : aget d key with
  | some w =>
      simp only [hs, Option.isSome_some, if_pos, if_true]
      induction d with
      | nil => simp [aget] at hs
      | cons kv rest ih =>
          obtain ⟨k, a⟩ := kv
          by_cases hk : k = key
          · simp [aget, hk]
          · simp only [aget, hk, if_neg, if_false] at hs
            simp only [List.map_cons, if_neg hk, aget, if_neg hk]
            exact ih hs
  | none =>
      simp only [hs, Option.isSome_none, Bool.false_eq_true, if_neg, if_false]
      induction d with
      | nil => simp [aget]
      | cons kv rest ih =>
          obtain ⟨k, a⟩ := kv
          by_cases hk : k = key
          · simp [aget, hk] at hs
          · simp only [aget, hk, if_neg, if_false] at hs
            simp only [List.cons_append, aget, hk, if_neg, if_false]
            exact ih hs

theorem aget_append_single_ne {κ α : Type} [DecidableEq κ] (d : List (κ × α)) (key j : κ)
    (v : α) (hne : key ≠ j) : aget (d ++ [(key, v)]) j = aget d j := by
  induction d with
  | nil => simp [aget, if_neg hne]
  | cons kv rest ih =>
      obtain ⟨k, a⟩ := kv
      by_cases hj : k = j
      · simp [aget, hj]
      · simp only [List.cons_append, aget, if_neg hj]
        exact ih

theorem aget_aset_ne {κ α : Type} [DecidableEq κ] (d : List (κ × α)) (key j : κ) (v : α)
    (hne : key ≠ j) : aget (aset d key v) j = aget d j := by
  unfold aset
  by_cases hs : (aget d key).isSome
  · simp only [hs, if_pos, if_true]
    exact aget_map_replace d key j v hne
  · simp only [hs, if_neg, if_false]
    exact aget_append_single_ne d key j v hne

theorem mem_aset {κ α : Type} [DecidableEq κ] {d : List (κ × α)} {key : κ} {v : α}
    {kv : κ × α} (h : kv ∈ aset d key v) : kv ∈ d ∨ kv = (key, v) := by
  unfold aset at h
  by_cases hs : (aget d key).isSome
  · simp only [hs, if_pos, if_true] at h
    rcases List.mem_map.mp h with ⟨kv2, hmem, heq⟩
    by_cases hk : kv2.1 = key
    · right; simp only [hk, if_pos, if_true] at heq; exact heq.symm
    · left; simp only [hk, if_neg, if_false] at heq; exact heq ▸ hmem
  · rw [if_neg hs] at h
    simpa using h

theorem akeys_aset {κ α : Type} [DecidableEq κ] (d : List (κ × α)) (key : κ) (v : α) :
    akeys (aset d key v) = if (aget d key).isSome then akeys d else akeys d ++ [key] := by
  unfold aset
  by_cases hs : (aget d key).isSome
  · simp only [hs, if_pos, if_true, akeys, List.map_map]
    apply List.map_congr_left
    intro kv hmem
    by_cases hk : kv.1 = key
    · simp [Function.comp, hk]
    · simp [Function.comp, hk]
  · simp [hs, akeys]

theorem nodupKeys_aset {κ α : Type} [DecidableEq κ] {d : List (κ × α)} (key : κ) (v : α)
    (h : NodupKeys d) : NodupKeys (aset d key v) := by
  unfold NodupKeys
  rw [akeys_aset]
  by_cases hs : (aget d key).isSome
  · simpa [hs] using h
  · have hnone : aget d key = none := by
      cases ho : aget d key
      · rfl
      · simp [ho] at hs
    have hnm : key ∉ akeys d := (aget_eq_none_iff d key).mp hnone
    simp only [hs, if_neg, if_false]
    simpa [List.nodup_append] using And.intro h hnm


/-! ### Helper lemmas: weekly bonus lookup -/

theorem weeklyBonusLoop_all_above {total : ℤ} {l : List TotalLevelBonus} (b : ℤ)
    (h : ∀ e ∈ l, total < e.level) : weeklyBonusLoop total l b = b := by
  cases l with
  | nil => rfl
  | cons x rest =>
      have hx : total < x.level := h x (List.mem_cons_self _ _)
      simp [weeklyBonusLoop, hx]

theorem weeklyBonusLoop_max {total : ℤ} {l : List TotalLevelBonus}
    (hs : l.Sorted (fun a b => a.level ≤ b.level))
    (hp : l.Pairwise (fun a b => a.level ≠ b.level))
    {e : TotalLevelBonus} (hmem : e ∈ l) (hle : e.level ≤ total)
    (hmax : ∀ f ∈ l, f.level ≤ total → f.level ≤ e.level) (b : ℤ) :
    weeklyBonusLoop total l b = e.weekly_bonus := by
  induction l generalizing b with
  | nil => simp at hmem
  | cons x rest ih =>
      have hxle : ¬ total < x.level := by
        intro hlt
        rcases List.mem_cons.mp hmem with he | he
        · exact absurd hle (by rw [he]; exact not_le.mpr hlt)
        · have := (List.pairwise_cons.mp hs).1 e he
          exact absurd hle (not_le.mpr (lt_of_lt_of_le hlt this))
      simp only [weeklyBonusLoop, if_neg hxle]
      rcases List.mem_cons.mp hmem with he | he
      · subst he
        by_cases hrest : ∃ f ∈ rest, f.level ≤ total
        · rcases hrest with ⟨f, hf, hfle⟩
          have h1 : f.level ≤ e.level := hmax f (List.mem_cons_of_mem _ hf) hfle
          have h2 : e.level ≤ f.level := (List.pairwise_cons.mp hs).1 f hf
          have h3 : e.level ≠ f.level := (List.pairwise_cons.mp hp).1 f hf
          exact absurd (le_antisymm h2 h1) h3
        · push_neg at hrest
          exact weeklyBonusLoop_all_above _ hrest
      · exact ih (List.pairwise_cons.mp hs).2 (List.pairwise_cons.mp hp).2 he
          (fun f hf hfle => hmax f (List.mem_cons_of_mem _ hf) hfle) x.weekly_bonus

/-- C9: `weekly_bonus_for_total_level` is a highest-tier-not-exceeding step
lookup: it returns 0 when every tier is above the total level and the weekly
bonus of the maximal tier at or below the total otherwise (tier levels are
assumed pairwise distinct, as in the game's table). -/
theorem weeklyBonus_step_lookup (tiers : List TotalLevelBonus) (total : ℤ)
    (hd : tiers.Pairwise (fun a b => a.level ≠ b.level)) :
    ((∀ e ∈ tiers, total < e.level) → weeklyBonusForTotalLevel tiers total = 0)
    ∧ (∀ e ∈ tiers, e.level ≤ total →
        (∀ f ∈ tiers, f.level ≤ total → f.level ≤ e.level) →
        weeklyBonusForTotalLevel tiers total = e.weekly_bonus) := by
  have hperm : List.Perm (sortBonuses tiers) tiers := List.perm_insertionSort _ tiers
  have hsorted : (sortBonuses tiers).Sorted (fun a b => a.level ≤ b.level) :=
    List.sorted_insertionSort _ tiers
  have hpair : (sortBonuses tiers).Pairwise (fun a b => a.level ≠ b.level) :=
    (hperm.pairwise_iff (fun h => Ne.symm h)).mpr hd
  constructor
  · intro hall
    exact weeklyBonusLoop_all_above 0 (fun e he => hall e (hperm.mem_iff.mp he))
  · intro e hmem hle hmax
    exact weeklyBonusLoop_max hsorted hpair (hperm.mem_iff.mpr hmem) hle
      (fun f hf hfle => hmax f (hperm.mem_iff.mp hf) hfle) 0

/-- Witness for C9, the spec's concrete scenario: a table with a single tier
at level 5 granting 50000 gives bonus 0 at total level 1 and 50000 at 5. -/
theorem weeklyBonus_step_lookup_witness :
    ([⟨5, 50000⟩] : List TotalLevelBonus).Pairwise (fun a b => a.level ≠ b.level)
    ∧ weeklyBonusForTotalLevel [⟨5, 50000⟩] 1 = 0
    ∧ weeklyBonusForTotalLevel [⟨5, 50000⟩] 5 = 50000 := by
  have hp : ([⟨5, 50000⟩] : List TotalLevelBonus).Pairwise
      (fun a b => a.level ≠ b.level) := by simp
  refine ⟨hp, ?_, ?_⟩
  · exact (weeklyBonus_step_lookup [⟨5, 50000⟩] 1 hp).1 (by intro e he; simp at he; simp [he])
  · exact (weeklyBonus_step_lookup [⟨5, 50000⟩] 5 hp).2 ⟨5, 50000⟩ (by simp) (by decide)
      (by intro f hf hfle; simp at hf; simp [hf])

/-! ### C3: early returns of the optimizer -/

/-- C3 (amended): with `weekly_limit ≤ 0` or an empty profile list the
optimizer immediately returns the empty result with status "No capacity";
with a non-empty profile list, a positive limit, and no profile of positive
sale value it immediately returns status "No variables".  In both cases the
result does not depend on the solver, i.e. the LP solver is never invoked. -/
theorem optimisePortfolio_early_returns (solver : LpSolver)
    (profiles : List ProductionProfile) (weekly_limit : ℚ)
    (capacities : List (String × ℚ)) (bonus_item_ids : List ℕ) :
    ((weekly_limit ≤ 0 ∨ profiles.isEmpty = true) →
      optimisePortfolio solver profiles weekly_limit capacities bonus_item_ids
        = ⟨[], 0, [], "No capacity"⟩)
    ∧ (¬(weekly_limit ≤ 0 ∨ profiles.isEmpty = true) →
        (profiles.filter (fun p => decide (0 < p.sale_value))).isEmpty = true →
        optimisePortfolio solver profiles weekly_limit capacities bonus_item_ids
          = ⟨[], 0, [], "No variables"⟩)
    ∧ ((weekly_limit ≤ 0 ∨ profiles.isEmpty = true
          ∨ (profiles.filter (fun p => decide (0 < p.sale_value))).isEmpty = true) →
        ∀ solver2 : LpSolver,
          optimisePortfolio solver profiles weekly_limit capacities bonus_item_ids
            = optimisePortfolio solver2 profiles weekly_limit capacities bonus_item_ids) := by
  refine ⟨?_, ?_, ?_⟩
  · intro h
    simp only [optimisePortfolio, if_pos h]
  · intro h hf
    simp only [optimisePortfolio, if_neg h, hf, if_pos, if_true]
  · intro h solver2
    by_cases h1 : weekly_limit ≤ 0 ∨ profiles.isEmpty = true
    · simp only [optimisePortfolio, if_pos h1]
    · have hf : (profiles.filter (fun p => decide (0 < p.sale_value))).isEmpty = true := by
        rcases h with h | h | h
        · exact absurd (Or.inl h) h1
        · exact absurd (Or.inr h) h1
        · exact h
      simp only [optimisePortfolio, if_neg h1, hf, if_pos, if_true]

/-- Witness for C3 (amended): both early returns at concrete inputs. -/
theorem optimisePortfolio_early_returns_witness :
    ((0 : ℚ) ≤ 0 ∨ ([] : List ProductionProfile).isEmpty = true)
    ∧ optimisePortfolio (fun _ => (1, fun _ => 1)) [] 0 [] [] = ⟨[], 0, [], "No capacity"⟩
    ∧ optimisePortfolio (fun _ => (1, fun _ => 1))
        [ProductionProfile.mk 1 "x" 0 0 0 "plant" [] [] []] 5 [] []
      = ⟨[], 0, [], "No variables"⟩ := by
  refine ⟨Or.inl le_rfl, ?_, ?_⟩
  · exact (optimisePortfolio_early_returns (fun _ => (1, fun _ => 1)) [] 0 [] []).1
      (Or.inl le_rfl)
  · exact (optimisePortfolio_early_returns (fun _ => (1, fun _ => 1))
      [ProductionProfile.mk 1 "x" 0 0 0 "plant" [] [] []] 5 [] []).2.1
      (by norm_num) rfl

/-- C3 counterexample: with a positive weekly limit and an *empty* candidate
profile list the code returns status "No capacity", not "No variables" as the
claim states. -/
theorem optimisePortfolio_empty_profiles_status :
    (optimisePortfolio (fun _ => (1, fun _ => 1)) [] 10 [] []).status = "No capacity"
    ∧ (optimisePortfolio (fun _ => (1, fun _ => 1)) [] 10 [] []).status ≠ "No variables" := by
  exact ⟨rfl, by decide⟩

/-! ### C2: growth-table minutes-per-unit -/

theorem loadPlantGrowth_mem (entries : List RawPlantEntry) (nutrients : List NutrientEntry)
    (kv : ℕ × PlantGrowth) (h : kv ∈ loadPlantGrowth entries nutrients) :
    ∃ e ∈ entries, e.harvest_item ≠ 0 ∧
      kv = (e.harvest_item,
        ⟨e.seed, e.harvest_item, e.stage_durations.sum,
          max 0 (e.stage_durations.sum - defaultSpeedup nutrients),
          parseAverage e.estimate_harvests 1, e.compatible_farmland⟩) := by
  have main : ∀ (l : List RawPlantEntry) (acc : List (ℕ × PlantGrowth)),
      kv ∈ l.foldl
        (fun acc e =>
          if e.harvest_item = 0 then acc
          else
            aset acc e.harvest_item
              ⟨e.seed, e.harvest_item, e.stage_durations.sum,
                max 0 (e.stage_durations.sum - defaultSpeedup nutrients),
                parseAverage e.estimate_harvests 1, e.compatible_farmland⟩)
        acc →
      kv ∈ acc ∨ ∃ e ∈ l, e.harvest_item ≠ 0 ∧
        kv = (e.harvest_item,
          ⟨e.seed, e.harvest_item, e.stage_durations.sum,
            max 0 (e.stage_durations.sum - defaultSpeedup nutrients),
            parseAverage e.estimate_harvests 1, e.compatible_farmland⟩) := by
    intro l
    induction l with
    | nil => exact fun acc h2 => Or.inl h2
    | cons x rest ih =>
        intro acc h2
        simp only [List.foldl_cons] at h2
        rcases ih _ h2 with hacc | ⟨e, he, hne, hkv⟩
        · by_cases hx : x.harvest_item = 0
          · rw [if_pos hx] at hacc
            exact Or.inl hacc
          · rw [if_neg hx] at hacc
            rcases mem_aset hacc with h3 | h3
            · exact Or.inl h3
            · exact Or.inr ⟨x, List.mem_cons_self _ _, hx, h3⟩
        · exact Or.inr ⟨e, List.mem_cons_of_mem _ he, hne, hkv⟩
  have h2 : kv ∈ entries.foldl
      (fun acc e =>
        if e.harvest_item = 0 then acc
        else
          aset acc e.harvest_item
            ⟨e.seed, e.harvest_item, e.stage_durations.sum,
              max 0 (e.stage_durations.sum - defaultSpeedup nutrients),
              parseAverage e.estimate_harvests 1, e.compatible_farmland⟩)
      ([] : List (ℕ × PlantGrowth)) := h
  rcases main entries [] h2 with h0 | hgood
  · simp at h0
  · exact hgood

theorem fishByName_mem (entries : List RawFishEntry) (nutrients : List NutrientEntry)
    (loc : Localization) (kv : String × FishGrowth)
    (h : kv ∈ fishByName entries nutrients loc) :
    ∃ e ∈ entries, ∃ nm,
      loc.get ("FISH_" ++ toString e.fish_id) = some nm ∧ nm ≠ "" ∧
        kv = (strLower nm,
          ⟨e.fry_id, e.fish_id, e.growth_time,
            max 0 (e.growth_time - defaultSpeedup nutrients), nm, 1⟩) := by
  have main : ∀ (l : List RawFishEntry) (acc : List (String × FishGrowth)),
      kv ∈ l.foldl
        (fun acc e =>
          match loc.get ("FISH_" ++ toString e.fish_id) with
          | none => acc
          | some nm =>
              if nm = "" then acc
              else
                aset acc (strLower nm)
                  ⟨e.fry_id, e.fish_id, e.growth_time,
                    max 0 (e.growth_time - defaultSpeedup nutrients), nm, 1⟩)
        acc →
      kv ∈ acc ∨ ∃ e ∈ l, ∃ nm,
        loc.get ("FISH_" ++ toString e.fish_id) = some nm ∧ nm ≠ "" ∧
          kv = (strLower nm,
            ⟨e.fry_id, e.fish_id, e.growth_time,
              max 0 (e.growth_time - defaultSpeedup nutrients), nm, 1⟩) := by
    intro l
    induction l with
    | nil => exact fun acc h2 => Or.inl h2
    | cons x rest ih =>
        intro acc h2
        simp only [List.foldl_cons] at h2
        rcases ih _ h2 with hacc | ⟨e, he, nm, hget, hne, hkv⟩
        · cases hget : loc.get ("FISH_" ++ toString x.fish_id) with
          | none => simp only [hget] at hacc; exact Or.inl hacc
          | some nm =>
              simp only [hget] at hacc
              by_cases hnm : nm = ""
              · rw [if_pos hnm] at hacc
                exact Or.inl hacc
              · rw [if_neg hnm] at hacc
                rcases mem_aset hacc with h3 | h3
                · exact Or.inl h3
                · exact Or.inr ⟨x, List.mem_cons_self _ _, nm, hget, hnm, h3⟩
        · exact Or.inr ⟨e, List.mem_cons_of_mem _ he, nm, hget, hne, hkv⟩
  have h2 : kv ∈ entries.foldl
      (fun acc e =>
        match loc.get ("FISH_" ++ toString e.fish_id) with
        | none => acc
        | some nm =>
            if nm = "" then acc
            else
              aset acc (strLower nm)
                ⟨e.fry_id, e.fish_id, e.growth_time,
                  max 0 (e.growth_time - defaultSpeedup nutrients), nm, 1⟩)
      ([] : List (String × FishGrowth)) := h
  rcases main entries [] h2 with h0 | hgood
  · simp at h0
  · exact hgood

theorem loadFishGrowth_mem (entries : List RawFishEntry) (nutrients : List NutrientEntry)
    (loc : Localization) (sale_items : List (ℕ × SaleItem)) (kv : ℕ × FishGrowth)
    (h : kv ∈ loadFishGrowth entries nutrients loc sale_items) :
    ∃ nmkv ∈ fishByName entries nutrients loc, nmkv.2 = kv.2 := by
  have main : ∀ (l : List (ℕ × SaleItem)) (acc : List (ℕ × FishGrowth)),
      kv ∈ l.foldl
        (fun acc skv =>
          if skv.2.category = "fish" then
            match aget (fishByName entries nutrients loc) (strLower skv.2.name) with
            | some g => aset acc skv.2.item_id g
            | none => acc
          else acc)
        acc →
      kv ∈ acc ∨ ∃ nmkv ∈ fishByName entries nutrients loc, nmkv.2 = kv.2 := by
    intro l
    induction l with
    | nil => exact fun acc h2 => Or.inl h2
    | cons x rest ih =>
        intro acc h2
        simp only [List.foldl_cons] at h2
        rcases ih _ h2 with hacc | hgood
        · by_cases hc : x.2.category = "fish"
          · rw [if_pos hc] at hacc
            cases hget : aget (fishByName entries nutrients loc) (strLower x.2.name) with
            | none => simp only [hget] at hacc; exact Or.inl hacc
            | some g =>
                simp only [hget] at hacc
                rcases mem_aset hacc with h3 | h3
                · exact Or.inl h3
                · refine Or.inr ⟨(strLower x.2.name, g), aget_mem hget, ?_⟩
                  rw [h3]
          · rw [if_neg hc] at hacc
            exact Or.inl hacc
        · exact Or.inr hgood
  have h2 : kv ∈ sale_items.foldl
      (fun acc skv =>
        if skv.2.category = "fish" then
          match aget (fishByName entries nutrients loc) (strLower skv.2.name) with
          | some g => aset acc skv.2.item_id g
          | none => acc
        else acc)
      ([] : List (ℕ × FishGrowth)) := h
  rcases main sale_items [] h2 with h0 | hgood
  · simp at h0
  · exact hgood

/-- C2 (amended): for every plant item with growth data the per-unit
plant-plot minutes equal `max(0, summed stage seconds - default speed-up)/60`
divided by the average yield, `+inf` when the yield is non-positive; for
every fish item matched to growth data the per-unit fish-pond minutes equal
`max(0, growth seconds - default speed-up)/60` with yield fixed at 1.  The
difference is clamped below at zero, which is where the claim's unclamped
formula fails. -/
theorem growth_minutes_per_unit :
    (∀ (entries : List RawPlantEntry) (nutrients : List NutrientEntry) (id : ℕ)
        (g : PlantGrowth), aget (loadPlantGrowth entries nutrients) id = some g →
      (∃ e ∈ entries, e.harvest_item = id ∧ g.growth_time_sec = e.stage_durations.sum
        ∧ g.average_yield = parseAverage e.estimate_harvests 1)
      ∧ g.accelerated_time_sec = max 0 (g.growth_time_sec - defaultSpeedup nutrients)
      ∧ g.minutes_per_item =
          (if g.average_yield ≤ 0 then XQ.inf
            else XQ.fin
              (((max 0 (g.growth_time_sec - defaultSpeedup nutrients) : ℤ) : ℚ) / 60
                / g.average_yield)))
    ∧ (∀ (entries : List RawFishEntry) (nutrients : List NutrientEntry)
        (loc : Localization) (sale_items : List (ℕ × SaleItem)) (id : ℕ) (g : FishGrowth),
        aget (loadFishGrowth entries nutrients loc sale_items) id = some g →
      g.yield_per_cycle = 1
      ∧ g.accelerated_time_sec = max 0 (g.growth_time_sec - defaultSpeedup nutrients)
      ∧ g.minutes_per_item =
          XQ.fin (((max 0 (g.growth_time_sec - defaultSpeedup nutrients) : ℤ) : ℚ) / 60)) := by
  constructor
  · intro entries nutrients id g h
    obtain ⟨e, he, hne, hkv⟩ := loadPlantGrowth_mem entries nutrients (id, g) (aget_mem h)
    have hid : e.harvest_item = id := (Prod.mk.injEq _ _ _ _).mp hkv.symm |>.1
    have hg : g = ⟨e.seed, e.harvest_item, e.stage_durations.sum,
        max 0 (e.stage_durations.sum - defaultSpeedup nutrients),
        parseAverage e.estimate_harvests 1, e.compatible_farmland⟩ :=
      (Prod.mk.injEq _ _ _ _).mp hkv |>.2
    refine ⟨⟨e, he, hid, by rw [hg], by rw [hg]⟩, by rw [hg], ?_⟩
    rw [hg]
    simp only [PlantGrowth.minutes_per_item, PlantGrowth.cycle_minutes]
  · intro entries nutrients loc sale_items id g h
    obtain ⟨nmkv, hmem, heq⟩ :=
      loadFishGrowth_mem entries nutrients loc sale_items (id, g) (aget_mem h)
    obtain ⟨e, he, nm, hget, hne, hkv⟩ := fishByName_mem entries nutrients loc nmkv hmem
    have heq2 : nmkv.2 = g := heq
    have hg : g = ⟨e.fry_id, e.fish_id, e.growth_time,
        max 0 (e.growth_time - defaultSpeedup nutrients), nm, 1⟩ := by
      rw [← heq2, hkv]
    refine ⟨by rw [hg], by rw [hg], ?_⟩
    rw [hg]
    simp only [FishGrowth.minutes_per_item, FishGrowth.cycle_minutes]
    norm_num

/-- Witness for C2 (amended), the spec's concrete scenario: growth seconds
6600 with a 600-second speed-up and yield 3 give 6000/60/3 = 100/3 = 33.33
plant-plot minutes per unit; an analogous fish entry gives 100 fish-pond
minutes per unit. -/
theorem growth_minutes_per_unit_witness :
    (aget (loadPlantGrowth [⟨1, 9, [3300, 3300], "3", []⟩] [⟨0, 600⟩]) 9
        = some ⟨1, 9, 6600, 6000, parseAverage "3" 1, []⟩
      ∧ ((⟨1, 9, 6600, 6000, parseAverage "3" 1, []⟩ : PlantGrowth).accelerated_time_sec
            = max 0 ((⟨1, 9, 6600, 6000, parseAverage "3" 1, []⟩ : PlantGrowth).growth_time_sec
                - defaultSpeedup [⟨0, 600⟩])
          ∧ (⟨1, 9, 6600, 6000, parseAverage "3" 1, []⟩ : PlantGrowth).minutes_per_item
            = XQ.fin (100 / 3)))
    ∧ (aget (loadFishGrowth [⟨2, 4, 6600⟩] [⟨0, 600⟩] ⟨[("FISH_4", "Blinko")]⟩
          [(11, ⟨11, 47, 0, 5, 0, "Blinko", "fish"⟩)]) 11
        = some ⟨2, 4, 6600, 6000, "Blinko", 1⟩
      ∧ (⟨2, 4, 6600, 6000, "Blinko", 1⟩ : FishGrowth).minutes_per_item = XQ.fin 100) := by
  have hav : parseAverage "3" 1 = 3 := by
    have h : parseAverage "3" 1 = List.sum [(3 : ℚ)] / 1 := rfl
    rw [h]; norm_num
  have hplant : aget (loadPlantGrowth [⟨1, 9, [3300, 3300], "3", []⟩] [⟨0, 600⟩]) 9
      = some ⟨1, 9, 6600, 6000, parseAverage "3" 1, []⟩ := rfl
  have hfish : aget (loadFishGrowth [⟨2, 4, 6600⟩] [⟨0, 600⟩] ⟨[("FISH_4", "Blinko")]⟩
        [(11, ⟨11, 47, 0, 5, 0, "Blinko", "fish"⟩)]) 11
      = some ⟨2, 4, 6600, 6000, "Blinko", 1⟩ := rfl
  have hp := (growth_minutes_per_unit.1 [⟨1, 9, [3300, 3300], "3", []⟩] [⟨0, 600⟩] 9
    ⟨1, 9, 6600, 6000, parseAverage "3" 1, []⟩ hplant)
  have hf := (growth_minutes_per_unit.2 [⟨2, 4, 6600⟩] [⟨0, 600⟩] ⟨[("FISH_4", "Blinko")]⟩
    [(11, ⟨11, 47, 0, 5, 0, "Blinko", "fish"⟩)] 11 ⟨2, 4, 6600, 6000, "Blinko", 1⟩ hfish)
  refine ⟨⟨hplant, hp.2.1, ?_⟩, hfish, ?_⟩
  · rw [hp.2.2]
    rw [show ((⟨1, 9, 6600, 6000, parseAverage "3" 1, []⟩ : PlantGrowth).average_yield)
        = parseAverage "3" 1 from rfl, hav]
    norm_num [defaultSpeedup]
  · rw [hf.2.2]
    norm_num [defaultSpeedup]

/-- C2 counterexample: a plant whose growth time (100 s) is below the default
speed-up (600 s) gets 0 minutes per unit from the clamped code, not the
negative value (100-600)/60 = -25/3 demanded by the claim's formula. -/
theorem growth_minutes_per_unit_cex :
    (aget (loadPlantGrowth [⟨1, 7, [100], "x", []⟩] [⟨0, 600⟩]) 7).map
        PlantGrowth.minutes_per_item = some (XQ.fin 0)
    ∧ XQ.fin 0 ≠ XQ.fin (((100 : ℚ) - 600) / 60 / 1) := by
  constructor
  · have h : aget (loadPlantGrowth [⟨1, 7, [100], "x", []⟩] [⟨0, 600⟩]) 7
        = some ⟨1, 7, 100, 0, 1, []⟩ := rfl
    rw [h]
    simp [PlantGrowth.minutes_per_item, PlantGrowth.cycle_minutes]
  · intro h
    have := XQ.fin.inj h
    norm_num at this

/-! ### Profile computation: unfolding and memoisation -/

theorem computeProfileFuel_succ (c : CalcData) (fuel : ℕ) (cache : Cache)
    (stack : List ℕ) (item_id : ℕ) :
    computeProfileFuel c (fuel + 1) cache stack item_id =
      match aget cache item_id with
      | some p => (some p, cache)
      | none =>
          if item_id ∈ stack then (none, cache)
          else
            match aget c.sale_items item_id with
            | none => (none, cache)
            | some sale =>
                let pc : ProductionProfile × Cache :=
                  buildDispatch c (computeProfileFuel c fuel) cache stack item_id sale
                (some pc.1, aset pc.2 item_id pc.1) := rfl

theorem computeProfileFuel_get_self (c : CalcData) (fuel : ℕ) (cache : Cache)
    (stack : List ℕ) (item_id : ℕ) :
    aget (computeProfileFuel c (fuel + 1) cache stack item_id).2 item_id
      = (computeProfileFuel c (fuel + 1) cache stack item_id).1 := by
  rw [computeProfileFuel_succ]
  cases hc : aget cache item_id with
  | some p => simpa using hc
  | none =>
      simp only
      by_cases hst : item_id ∈ stack
      · simpa [if_pos hst] using hc
      · rw [if_neg hst]
        cases hs : aget c.sale_items item_id with
        | none => simpa using hc
        | some sale => simpa using aget_aset_self _ item_id _

/-- C5: computing a profile twice for the same item id on the same calculator
state gives the same value and profile cache: the first resolution is
memoized (the returned profile is exactly what the cache then holds for that
id) and the second call neither recomputes nor mutates anything. -/
theorem computeProfile_idempotent (c : CalcData) (cache : Cache) (item_id : ℕ) :
    computeProfile c (computeProfile c cache item_id).2 item_id
      = computeProfile c cache item_id
    ∧ aget (computeProfile c cache item_id).2 item_id
      = (computeProfile c cache item_id).1 := by
  have hget : aget (computeProfile c cache item_id).2 item_id
      = (computeProfile c cache item_id).1 :=
    computeProfileFuel_get_self c _ cache [] item_id
  refine ⟨?_, hget⟩
  show computeProfileFuel c (c.sale_items.length + 1)
      (computeProfile c cache item_id).2 [] item_id = computeProfile c cache item_id
  rw [computeProfileFuel_succ]
  cases hr : (computeProfile c cache item_id).1 with
  | some p =>
      rw [hr] at hget
      simp only [hget]
      rw [← hr]
  | none =>
      rw [hr] at hget
      simp only [hget, List.not_mem_nil, if_neg, if_false]
      have hfirst := computeProfileFuel_succ c c.sale_items.length cache [] item_id
      have hcache : aget cache item_id = none := by
        cases hc : aget cache item_id with
        | none => rfl
        | some q =>
            have : (computeProfile c cache item_id).1 = some q := by
              show (computeProfileFuel c (c.sale_items.length + 1) cache [] item_id).1 = some q
              rw [hfirst, hc]
            rw [hr] at this
            exact absurd this (by simp)
      cases hs : aget c.sale_items item_id with
      | none =>
          have hres : computeProfile c cache item_id = (none, cache) := by
            show computeProfileFuel c (c.sale_items.length + 1) cache [] item_id = (none, cache)
            rw [hfirst, hcache]
            simp [hs]
          rw [hres]
      | some sale =>
          exfalso
          have : (computeProfile c cache item_id).1
              = some (buildDispatch c (computeProfileFuel c c.sale_items.length)
                  cache [] item_id sale).1 := by
            show (computeProfileFuel c (c.sale_items.length + 1) cache [] item_id).1 = _
            rw [hfirst, hcache]
            simp [hs]
          rw [hr] at this
          exact absurd this (by simp)

/-! ### C7: plant and fish profiles with missing data or zero yield -/

/-- C7 (amended): a plant or fish sale item with no growth data gets an empty
facility map together with an explanatory note; one whose growth data is
present gets exactly the facility entry with `minutes_per_item` — which is
`+inf` when the yield is non-positive — and no note at all (the code adds no
note for a zero yield). -/
theorem plant_fish_profile_growth_cases (c : CalcData) (cache : Cache) (item_id : ℕ)
    (sale : SaleItem) (hc : aget cache item_id = none)
    (hs : aget c.sale_items item_id = some sale) :
    (sale.category = "plant" →
      (computeProfile c cache item_id).1 = some (buildPlantProfile c sale)
      ∧ (aget c.plant_growth sale.item_id = none →
          (buildPlantProfile c sale).facility_minutes = []
          ∧ (buildPlantProfile c sale).notes
              = ["No planting data available; timing estimates missing."])
      ∧ (∀ g, aget c.plant_growth sale.item_id = some g →
          (buildPlantProfile c sale).facility_minutes
              = [(PLANT_FACILITY, g.minutes_per_item)]
          ∧ (buildPlantProfile c sale).notes = []
          ∧ (g.average_yield ≤ 0 → g.minutes_per_item = XQ.inf)))
    ∧ (sale.category = "fish" →
      (computeProfile c cache item_id).1 = some (buildFishProfile c sale)
      ∧ (aget c.fish_growth sale.item_id = none →
          (buildFishProfile c sale).facility_minutes = []
          ∧ (buildFishProfile c sale).notes
              = ["No fish growth data available; timing estimates missing."])
      ∧ (∀ g, aget c.fish_growth sale.item_id = some g →
          (buildFishProfile c sale).facility_minutes
              = [(FISH_FACILITY, g.minutes_per_item)]
          ∧ (buildFishProfile c sale).notes = []
          ∧ (g.yield_per_cycle ≤ 0 → g.minutes_per_item = XQ.inf))) := by
  constructor
  · intro hcat
    refine ⟨?_, ?_, ?_⟩
    · show (computeProfileFuel c (c.sale_items.length + 1) cache [] item_id).1 = _
      rw [computeProfileFuel_succ, hc]
      simp only [List.not_mem_nil, if_neg, if_false, hs]
      simp [buildDispatch, hcat]
    · intro hng
      unfold buildPlantProfile
      rw [hng]
      exact ⟨rfl, rfl⟩
    · intro g hg
      unfold buildPlantProfile
      rw [hg]
      refine ⟨rfl, rfl, fun hy => ?_⟩
      unfold PlantGrowth.minutes_per_item
      rw [if_pos hy]
  · intro hcat
    have hnotplant : ¬ sale.category = "plant" := by rw [hcat]; decide
    refine ⟨?_, ?_, ?_⟩
    · show (computeProfileFuel c (c.sale_items.length + 1) cache [] item_id).1 = _
      rw [computeProfileFuel_succ, hc]
      simp only [List.not_mem_nil, if_neg, if_false, hs]
      simp [buildDispatch, hcat, hnotplant]
    · intro hng
      unfold buildFishProfile
      rw [hng]
      exact ⟨rfl, rfl⟩
    · intro g hg
      unfold buildFishProfile
      rw [hg]
      refine ⟨rfl, rfl, fun hy => ?_⟩
      unfold FishGrowth.minutes_per_item
      rw [if_pos hy]

/-- Witness for C7 (amended): a plant item with no growth data (note plus
empty facility map) and one with zero-yield growth data (infinite minutes). -/
theorem plant_fish_profile_growth_cases_witness :
    aget ([] : Cache) 2 = none
    ∧ aget (⟨⟨[]⟩, [(2, ⟨2, 34, 0, 5, 0, "Weed", "plant"⟩)], [(2, ⟨1, 2, 100, 100, 0, []⟩)],
        [], [], [], []⟩ : CalcData).sale_items 2 = some ⟨2, 34, 0, 5, 0, "Weed", "plant"⟩
    ∧ (computeProfile ⟨⟨[]⟩, [(2, ⟨2, 34, 0, 5, 0, "Weed", "plant"⟩)],
        [(2, ⟨1, 2, 100, 100, 0, []⟩)], [], [], [], []⟩ [] 2).1
        = some (buildPlantProfile ⟨⟨[]⟩, [(2, ⟨2, 34, 0, 5, 0, "Weed", "plant"⟩)],
            [(2, ⟨1, 2, 100, 100, 0, []⟩)], [], [], [], []⟩ ⟨2, 34, 0, 5, 0, "Weed", "plant"⟩)
    ∧ (⟨1, 2, 100, 100, 0, []⟩ : PlantGrowth).minutes_per_item = XQ.inf := by
  refine ⟨rfl, rfl, ?_, ?_⟩
  · exact ((plant_fish_profile_growth_cases
      (⟨⟨[]⟩, [(2, ⟨2, 34, 0, 5, 0, "Weed", "plant"⟩)], [(2, ⟨1, 2, 100, 100, 0, []⟩)],
        [], [], [], []⟩ : CalcData) [] 2 ⟨2, 34, 0, 5, 0, "Weed", "plant"⟩ rfl rfl).1 rfl).1
  · exact (((plant_fish_profile_growth_cases
      (⟨⟨[]⟩, [(2, ⟨2, 34, 0, 5, 0, "Weed", "plant"⟩)], [(2, ⟨1, 2, 100, 100, 0, []⟩)],
        [], [], [], []⟩ : CalcData) [] 2 ⟨2, 34, 0, 5, 0, "Weed", "plant"⟩ rfl rfl).1
      rfl).2.2 ⟨1, 2, 100, 100, 0, []⟩ rfl).2.2 (by norm_num)

/-- C7 counterexample: a plant item whose growth data has yield 0 gets an
infinite plant-plot minutes entry but NO explanatory note — the notes list is
empty, contradicting the claim that each such case carries a note. -/
theorem plant_zero_yield_has_no_note :
    ((computeProfile ⟨⟨[]⟩, [(2, ⟨2, 34, 0, 5, 0, "Weed", "plant"⟩)],
        [(2, ⟨1, 2, 100, 100, 0, []⟩)], [], [], [], []⟩ [] 2).1).map
      (fun p => (p.facility_minutes, p.notes))
    = some ([(PLANT_FACILITY, XQ.inf)], []) := rfl

/-! ### C6: cyclic recipe edges -/

theorem furnitureFold_preserves_none (c : CalcData)
    (recur : Cache → List ℕ → ℕ → Option ProductionProfile × Cache)
    (stack2 : List ℕ) (id : ℕ)
    (Hrec : ∀ cache2 jid2, aget cache2 id = none → aget (recur cache2 stack2 jid2).2 id = none) :
    ∀ (mats : List MaterialRequirement) (cache : Cache) (fm : FacDict)
      (comps : List ComponentRequirement), aget cache id = none →
      aget (furnitureFold c recur stack2 mats cache fm comps).2.2 id = none := by
  intro mats
  induction mats with
  | nil => intro cache fm comps h; exact h
  | cons m rest ih =>
      intro cache fm comps h
      simp only [furnitureFold]
      exact ih _ _ _ (Hrec cache m.item_id h)

theorem computeProfileFuel_preserves_stack_none (c : CalcData) :
    ∀ (fuel : ℕ) (cache : Cache) (stack : List ℕ) (jid id : ℕ), id ∈ stack →
      aget cache id = none →
      aget (computeProfileFuel c fuel cache stack jid).2 id = none := by
  intro fuel
  induction fuel with
  | zero => intro cache stack jid id _ h; exact h
  | succ fuel ih =>
      intro cache stack jid id hmem h
      rw [computeProfileFuel_succ]
      cases hcj : aget cache jid with
      | some p => exact h
      | none =>
          simp only
          by_cases hst : jid ∈ stack
          · rw [if_pos hst]; exact h
          · rw [if_neg hst]
            cases hs : aget c.sale_items jid with
            | none => exact h
            | some sale =>
                simp only
                have hne : jid ≠ id := fun he => hst (he ▸ hmem)
                rw [aget_aset_ne _ _ _ _ hne]
                unfold buildDispatch
                by_cases h1 : sale.category = "plant"
                · rw [if_pos h1]; exact h
                · rw [if_neg h1]
                  by_cases h2 : sale.category = "fish"
                  · rw [if_pos h2]; exact h
                  · rw [if_neg h2]
                    by_cases h3 : sale.category = "furniture"
                    · rw [if_pos h3]
                      unfold buildFurnitureProfile
                      exact furnitureFold_preserves_none c _ _ id
                        (fun cache2 jid2 h2c => ih cache2 (jid :: stack) jid2 id
                          (List.mem_cons_of_mem _ hmem) h2c) _ _ _ _ h
                    · rw [if_neg h3]; exact h

theorem furnitureFold_cyclic_comps (c : CalcData)
    (recur : Cache → List ℕ → ℕ → Option ProductionProfile × Cache)
    (stack2 : List ℕ) (id : ℕ)
    (Hnone : ∀ cache2 jid2, aget cache2 id = none → aget (recur cache2 stack2 jid2).2 id = none)
    (Hcycle : ∀ cache2, aget cache2 id = none → recur cache2 stack2 id = (none, cache2)) :
    ∀ (mats : List MaterialRequirement) (cache : Cache) (fm : FacDict)
      (comps : List ComponentRequirement), aget cache id = none →
      ∀ comp ∈ (furnitureFold c recur stack2 mats cache fm comps).2.1,
        comp ∈ comps ∨ (comp.item_id = id → comp.profile = none) := by
  intro mats
  induction mats with
  | nil => intro cache fm comps h comp hmem; exact Or.inl hmem
  | cons m rest ih =>
      intro cache fm comps h comp hmem
      simp only [furnitureFold] at hmem
      rcases ih _ _ _ (Hnone cache m.item_id h) comp hmem with hin | hgood
      · rcases List.mem_append.mp hin with hin2 | hin2
        · exact Or.inl hin2
        · right
          intro hid
          have hcomp := List.mem_singleton.mp hin2
          subst hcomp
          simp only at hid
          subst hid
          rw [Hcycle cache h]
      · exact Or.inr hgood

/-- C6 (amended): a material edge that refers back to an item currently being
resolved (and not yet memoized) resolves to no profile without raising, and
the importing furniture recipe still produces a profile whose component entry
for that edge has `profile = none`; however no missing-component note is
recorded — the notes flag only an entirely missing recipe. -/
theorem cyclic_component_resolution (c : CalcData) :
    (∀ (fuel : ℕ) (cache : Cache) (stack : List ℕ) (id : ℕ), id ∈ stack →
        aget cache id = none →
        computeProfileFuel c fuel cache stack id = (none, cache))
    ∧ (∀ (cache : Cache) (item_id : ℕ) (sale : SaleItem), aget cache item_id = none →
        aget c.sale_items item_id = some sale → sale.category = "furniture" →
        ∃ p, (computeProfile c cache item_id).1 = some p
          ∧ p.notes = (if (agetD c.furniture_recipes sale.item_id []).isEmpty then
              ["Furniture recipe not found in extracted data."] else [])
          ∧ ∀ comp ∈ p.components, comp.item_id = item_id → comp.profile = none) := by
  have hcycle : ∀ (fuel : ℕ) (cache : Cache) (stack : List ℕ) (id : ℕ), id ∈ stack →
      aget cache id = none → computeProfileFuel c fuel cache stack id = (none, cache) := by
    intro fuel cache stack id hmem h
    cases fuel with
    | zero => rfl
    | succ fuel => rw [computeProfileFuel_succ, h]; simp [hmem]
  refine ⟨hcycle, ?_⟩
  intro cache item_id sale hc hs hcat
  have hnotplant : ¬ sale.category = "plant" := by rw [hcat]; decide
  have hnotfish : ¬ sale.category = "fish" := by rw [hcat]; decide
  have hres : computeProfile c cache item_id =
      (some (buildFurnitureProfile c (computeProfileFuel c c.sale_items.length) cache
          (item_id :: []) sale).1,
        aset (buildFurnitureProfile c (computeProfileFuel c c.sale_items.length) cache
          (item_id :: []) sale).2 item_id
          (buildFurnitureProfile c (computeProfileFuel c c.sale_items.length) cache
            (item_id :: []) sale).1) := by
    show computeProfileFuel c (c.sale_items.length + 1) cache [] item_id = _
    rw [computeProfileFuel_succ, hc]
    simp only [List.not_mem_nil, if_neg, if_false, hs]
    simp [buildDispatch, hnotplant, hnotfish, hcat]
  refine ⟨(buildFurnitureProfile c (computeProfileFuel c c.sale_items.length) cache
      (item_id :: []) sale).1, by rw [hres], rfl, ?_⟩
  intro comp hmem hid
  have Hnone : ∀ cache2 jid2, aget cache2 item_id = none →
      aget (computeProfileFuel c c.sale_items.length cache2 (item_id :: []) jid2).2 item_id
        = none :=
    fun cache2 jid2 h2 => computeProfileFuel_preserves_stack_none c _ cache2 _ jid2 item_id
      (List.mem_cons_self _ _) h2
  have Hcycle : ∀ cache2, aget cache2 item_id = none →
      computeProfileFuel c c.sale_items.length cache2 (item_id :: []) item_id
        = (none, cache2) :=
    fun cache2 h2 => hcycle _ cache2 _ item_id (List.mem_cons_self _ _) h2
  have := furnitureFold_cyclic_comps c (computeProfileFuel c c.sale_items.length)
    (item_id :: []) item_id Hnone Hcycle
    (agetD c.furniture_recipes sale.item_id []) cache
    [(CRAFT_FACILITY, XQ.fin (agetD c.furniture_time sale.item_id 0))] [] hc comp
    (by exact hmem)
  rcases this with hin | hgood
  · simp at hin
  · exact hgood hid

/-- Witness for C6 (amended): a furniture item whose recipe requires itself;
the resolved profile exists, has no notes, and its (cyclic) component has no
profile. -/
theorem cyclic_component_resolution_witness :
    aget ([] : Cache) 1 = none
    ∧ aget (⟨⟨[]⟩, [(1, ⟨1, 22, 0, 10, 0, "Bed", "furniture"⟩)], [], [],
        [(1, [⟨1, 2⟩])], [(1, 5)], []⟩ : CalcData).sale_items 1
        = some ⟨1, 22, 0, 10, 0, "Bed", "furniture"⟩
    ∧ ∃ p, (computeProfile ⟨⟨[]⟩, [(1, ⟨1, 22, 0, 10, 0, "Bed", "furniture"⟩)], [], [],
          [(1, [⟨1, 2⟩])], [(1, 5)], []⟩ [] 1).1 = some p
        ∧ p.notes = (if (agetD (⟨⟨[]⟩, [(1, ⟨1, 22, 0, 10, 0, "Bed", "furniture"⟩)], [], [],
            [(1, [⟨1, 2⟩])], [(1, 5)], []⟩ : CalcData).furniture_recipes 1 []).isEmpty then
            ["Furniture recipe not found in extracted data."] else [])
        ∧ ∀ comp ∈ p.components, comp.item_id = 1 → comp.profile = none := by
  refine ⟨rfl, rfl, ?_⟩
  exact (cyclic_component_resolution _).2 [] 1 ⟨1, 22, 0, 10, 0, "Bed", "furniture"⟩ rfl rfl rfl

/-- C6 counterexample: for the self-cyclic recipe the importing profile's
notes list is empty and the cyclic component's profile is `none` — no
missing-component note is attached, contrary to the claim. -/
theorem cyclic_component_no_note :
    ((computeProfile ⟨⟨[]⟩, [(1, ⟨1, 22, 0, 10, 0, "Bed", "furniture"⟩)], [], [],
        [(1, [⟨1, 2⟩])], [(1, 5)], []⟩ [] 1).1).map
      (fun p => (p.notes, p.components.map (fun comp => (comp.item_id, comp.profile.isSome))))
    = some ([], [(1, false)]) := rfl

/-! ### C1: the additive furniture invariant -/

theorem facility_minutes_mk (i : ℕ) (n : String) (s : ℚ) (a l : ℤ) (cat : String)
    (fm : FacDict) (comps : List ComponentRequirement) (notes : List String) :
    (ProductionProfile.mk i n s a l cat fm comps notes).facility_minutes = fm := rfl

theorem components_mk (i : ℕ) (n : String) (s : ℚ) (a l : ℤ) (cat : String)
    (fm : FacDict) (comps : List ComponentRequirement) (notes : List String) :
    (ProductionProfile.mk i n s a l cat fm comps notes).components = comps := rfl

theorem category_mk (i : ℕ) (n : String) (s : ℚ) (a l : ℤ) (cat : String)
    (fm : FacDict) (comps : List ComponentRequirement) (notes : List String) :
    (ProductionProfile.mk i n s a l cat fm comps notes).category = cat := rfl

theorem item_id_mk (i : ℕ) (n : String) (s : ℚ) (a l : ℤ) (cat : String)
    (fm : FacDict) (comps : List ComponentRequirement) (notes : List String) :
    (ProductionProfile.mk i n s a l cat fm comps notes).item_id = i := rfl

theorem buildFurnitureProfile_eq (c : CalcData)
    (recur : Cache → List ℕ → ℕ → Option ProductionProfile × Cache)
    (cache : Cache) (stack : List ℕ) (sale : SaleItem) :
    buildFurnitureProfile c recur cache stack sale
      = (ProductionProfile.mk sale.item_id sale.name sale.sale_value sale.ability_id
          sale.ability_level sale.category
          (furnitureFold c recur stack (agetD c.furniture_recipes sale.item_id []) cache
            [(CRAFT_FACILITY, XQ.fin (agetD c.furniture_time sale.item_id 0))] []).1
          (furnitureFold c recur stack (agetD c.furniture_recipes sale.item_id []) cache
            [(CRAFT_FACILITY, XQ.fin (agetD c.furniture_time sale.item_id 0))] []).2.1
          (if (agetD c.furniture_recipes sale.item_id []).isEmpty then
            ["Furniture recipe not found in extracted data."] else []),
        (furnitureFold c recur stack (agetD c.furniture_recipes sale.item_id []) cache
          [(CRAFT_FACILITY, XQ.fin (agetD c.furniture_time sale.item_id 0))] []).2.2) := rfl

theorem furnitureFold_cons_some (c : CalcData)
    (recur : Cache → List ℕ → ℕ → Option ProductionProfile × Cache) (stack2 : List ℕ)
    (m : MaterialRequirement) (rest : List MaterialRequirement) (cache : Cache)
    (fm : FacDict) (comps : List ComponentRequirement) (qp : ProductionProfile)
    (hrc1 : (recur cache stack2 m.item_id).1 = some qp) :
    furnitureFold c recur stack2 (m :: rest) cache fm comps
      = furnitureFold c recur stack2 rest (recur cache stack2 m.item_id).2
          (addScaled fm qp.facility_minutes m.quantity)
          (comps ++ [⟨m.item_id, c.localization.item_name m.item_id, m.quantity, some qp,
            aget c.exchange_costs m.item_id⟩]) := by
  show furnitureFold c recur stack2 rest (recur cache stack2 m.item_id).2
      (match (recur cache stack2 m.item_id).1 with
        | some q => addScaled fm q.facility_minutes m.quantity
        | none => fm)
      (comps ++ [⟨m.item_id, c.localization.item_name m.item_id, m.quantity,
        (recur cache stack2 m.item_id).1, aget c.exchange_costs m.item_id⟩]) = _
  rw [hrc1]

theorem furnitureFold_cons_none (c : CalcData)
    (recur : Cache → List ℕ → ℕ → Option ProductionProfile × Cache) (stack2 : List ℕ)
    (m : MaterialRequirement) (rest : List MaterialRequirement) (cache : Cache)
    (fm : FacDict) (comps : List ComponentRequirement)
    (hrc1 : (recur cache stack2 m.item_id).1 = none) :
    furnitureFold c recur stack2 (m :: rest) cache fm comps
      = furnitureFold c recur stack2 rest (recur cache stack2 m.item_id).2 fm
          (comps ++ [⟨m.item_id, c.localization.item_name m.item_id, m.quantity, none,
            aget c.exchange_costs m.item_id⟩]) := by
  show furnitureFold c recur stack2 rest (recur cache stack2 m.item_id).2
      (match (recur cache stack2 m.item_id).1 with
        | some q => addScaled fm q.facility_minutes m.quantity
        | none => fm)
      (comps ++ [⟨m.item_id, c.localization.item_name m.item_id, m.quantity,
        (recur cache stack2 m.item_id).1, aget c.exchange_costs m.item_id⟩]) = _
  rw [hrc1]

theorem agetD_addScaled (f : String) (q : ℚ) :
    ∀ (src : List (String × XQ)) (acc : FacDict), NodupKeys src →
      agetD (addScaled acc src q) f (XQ.fin 0)
        = XQ.add (agetD acc f (XQ.fin 0)) (XQ.smul (agetD src f (XQ.fin 0)) q) := by
  intro src
  induction src with
  | nil =>
      intro acc _
      show agetD acc f (XQ.fin 0) = _
      rw [show agetD ([] : List (String × XQ)) f (XQ.fin 0) = XQ.fin 0 from rfl,
        XQ.zero_smul, XQ.add_zero]
  | cons kv rest ih =>
      intro acc hnd
      obtain ⟨k, v⟩ := kv
      have h2 : (k :: akeys rest).Nodup := hnd
      have hk : k ∉ akeys rest := (List.nodup_cons.mp h2).1
      have hrest : NodupKeys rest := (List.nodup_cons.mp h2).2
      have hstep : addScaled acc ((k, v) :: rest) q
          = addScaled (aset acc k (XQ.add (agetD acc k (XQ.fin 0)) (XQ.smul v q))) rest q := rfl
      rw [hstep, ih _ hrest]
      by_cases hf : k = f
      · subst hf
        rw [show agetD (aset acc k (XQ.add (agetD acc k (XQ.fin 0)) (XQ.smul v q))) k
              (XQ.fin 0) = XQ.add (agetD acc k (XQ.fin 0)) (XQ.smul v q) from by
            unfold agetD; rw [aget_aset_self]; rfl]
        rw [show agetD rest k (XQ.fin 0) = XQ.fin 0 from by
            unfold agetD; rw [aget_eq_none_iff rest k |>.mpr hk]; rfl]
        rw [show agetD ((k, v) :: rest) k (XQ.fin 0) = v from by
            unfold agetD; simp [aget]]
        rw [XQ.zero_smul, XQ.add_zero]
      · rw [show agetD (aset acc k (XQ.add (agetD acc k (XQ.fin 0)) (XQ.smul v q))) f
              (XQ.fin 0) = agetD acc f (XQ.fin 0) from by
            unfold agetD; rw [aget_aset_ne _ _ _ _ hf]]
        rw [show agetD ((k, v) :: rest) f (XQ.fin 0) = agetD rest f (XQ.fin 0) from by
            unfold agetD; simp [aget, hf]]

theorem nodupKeys_addScaled (q : ℚ) :
    ∀ (src : List (String × XQ)) (acc : FacDict), NodupKeys acc →
      NodupKeys (addScaled acc src q) := by
  intro src
  induction src with
  | nil => intro acc h; exact h
  | cons kv rest ih =>
      intro acc h
      have hstep : addScaled acc (kv :: rest) q
          = addScaled (aset acc kv.1 (XQ.add (agetD acc kv.1 (XQ.fin 0)) (XQ.smul kv.2 q)))
              rest q := rfl
      rw [hstep]
      exact ih _ (nodupKeys_aset _ _ h)

theorem cacheWF_aset {c : CalcData} {cache : Cache} {item_id : ℕ} {p : ProductionProfile}
    (hw : CacheWF c cache) (hp : ProfileWF c p) : CacheWF c (aset cache item_id p) := by
  intro kv hmem
  rcases mem_aset hmem with h | h
  · exact hw kv h
  · rw [h]; exact hp

theorem furnitureFold_wf (c : CalcData)
    (recur : Cache → List ℕ → ℕ → Option ProductionProfile × Cache) (stack2 : List ℕ)
    (Hrec : ∀ cache2 jid2, CacheWF c cache2 →
      (∀ p, (recur cache2 stack2 jid2).1 = some p → ProfileWF c p)
      ∧ CacheWF c (recur cache2 stack2 jid2).2) :
    ∀ (mats : List MaterialRequirement) (cache : Cache) (fm : FacDict)
      (comps : List ComponentRequirement), CacheWF c cache → NodupKeys fm →
      ∃ newComps,
        (furnitureFold c recur stack2 mats cache fm comps).2.1 = comps ++ newComps
        ∧ NodupKeys (furnitureFold c recur stack2 mats cache fm comps).1
        ∧ CacheWF c (furnitureFold c recur stack2 mats cache fm comps).2.2
        ∧ ∀ f, agetD (furnitureFold c recur stack2 mats cache fm comps).1 f (XQ.fin 0)
            = XQ.add (agetD fm f (XQ.fin 0)) (csum (newComps.map (compContrib f))) := by
  intro mats
  induction mats with
  | nil =>
      intro cache fm comps hcw hfm
      refine ⟨[], by simp [furnitureFold], hfm, hcw, fun f => ?_⟩
      rw [List.map_nil, csum_nil, XQ.add_zero]
      exact rfl
  | cons m rest ih =>
      intro cache fm comps hcw hfm
      obtain ⟨hrcP, hrcC⟩ := Hrec cache m.item_id hcw
      cases hrc1 : (recur cache stack2 m.item_id).1 with
      | some qp =>
          have hq := hrcP qp hrc1
          rw [furnitureFold_cons_some c recur stack2 m rest cache fm comps qp hrc1]
          obtain ⟨new2, ha, hn, hcw2, hsum⟩ :=
            ih (recur cache stack2 m.item_id).2
              (addScaled fm qp.facility_minutes m.quantity)
              (comps ++ [⟨m.item_id, c.localization.item_name m.item_id, m.quantity,
                some qp, aget c.exchange_costs m.item_id⟩])
              hrcC (nodupKeys_addScaled _ _ _ hfm)
          refine ⟨⟨m.item_id, c.localization.item_name m.item_id, m.quantity,
            some qp, aget c.exchange_costs m.item_id⟩ :: new2, ?_, hn, hcw2, ?_⟩
          · rw [ha, List.append_assoc, List.singleton_append]
          · intro f
            rw [hsum f, agetD_addScaled f m.quantity qp.facility_minutes fm hq.1,
              List.map_cons, csum_cons]
            rw [show compContrib f ⟨m.item_id, c.localization.item_name m.item_id,
                m.quantity, some qp, aget c.exchange_costs m.item_id⟩
              = XQ.smul (agetD qp.facility_minutes f (XQ.fin 0)) m.quantity from rfl]
            rw [XQ.add_assoc]
      | none =>
          rw [furnitureFold_cons_none c recur stack2 m rest cache fm comps hrc1]
          obtain ⟨new2, ha, hn, hcw2, hsum⟩ :=
            ih (recur cache stack2 m.item_id).2 fm
              (comps ++ [⟨m.item_id, c.localization.item_name m.item_id, m.quantity,
                none, aget c.exchange_costs m.item_id⟩])
              hrcC hfm
          refine ⟨⟨m.item_id, c.localization.item_name m.item_id, m.quantity,
            none, aget c.exchange_costs m.item_id⟩ :: new2, ?_, hn, hcw2, ?_⟩
          · rw [ha, List.append_assoc, List.singleton_append]
          · intro f
            rw [hsum f, List.map_cons, csum_cons]
            rw [show compContrib f ⟨m.item_id, c.localization.item_name m.item_id,
                m.quantity, none, aget c.exchange_costs m.item_id⟩ = XQ.fin 0 from rfl]
            rw [XQ.zero_add]

theorem buildDispatch_wf (c : CalcData) (fuel : ℕ) (cache : Cache) (stack : List ℕ)
    (item_id : ℕ) (sale : SaleItem) (hw : CacheWF c cache)
    (ih : ∀ (cache2 : Cache) (stack2 : List ℕ) (jid : ℕ), CacheWF c cache2 →
      (∀ p, (computeProfileFuel c fuel cache2 stack2 jid).1 = some p → ProfileWF c p)
      ∧ CacheWF c (computeProfileFuel c fuel cache2 stack2 jid).2) :
    ProfileWF c (buildDispatch c (computeProfileFuel c fuel) cache stack item_id sale).1
    ∧ CacheWF c (buildDispatch c (computeProfileFuel c fuel) cache stack item_id sale).2 := by
  unfold buildDispatch
  by_cases h1 : sale.category = "plant"
  · rw [if_pos h1]
    refine ⟨⟨?_, ?_⟩, hw⟩
    · unfold buildPlantProfile
      cases hg : aget c.plant_growth sale.item_id <;>
        simp [NodupKeys, akeys, facility_minutes_mk]
    · intro hcat
      unfold buildPlantProfile at hcat
      cases hg : aget c.plant_growth sale.item_id <;> rw [hg] at hcat <;>
        rw [category_mk] at hcat <;> rw [h1] at hcat <;> simp at hcat
  · rw [if_neg h1]
    by_cases h2 : sale.category = "fish"
    · rw [if_pos h2]
      refine ⟨⟨?_, ?_⟩, hw⟩
      · unfold buildFishProfile
        cases hg : aget c.fish_growth sale.item_id <;>
          simp [NodupKeys, akeys, facility_minutes_mk]
      · intro hcat
        unfold buildFishProfile at hcat
        cases hg : aget c.fish_growth sale.item_id <;> rw [hg] at hcat <;>
          rw [category_mk] at hcat <;> rw [h2] at hcat <;> simp at hcat
    · rw [if_neg h2]
      by_cases h3 : sale.category = "furniture"
      · rw [if_pos h3]
        rw [buildFurnitureProfile_eq]
        obtain ⟨newComps, ha, hn, hcw2, hsum⟩ :=
          furnitureFold_wf c (computeProfileFuel c fuel) (item_id :: stack)
            (fun cache2 jid2 hc2 => ih cache2 (item_id :: stack) jid2 hc2)
            (agetD c.furniture_recipes sale.item_id []) cache
            [(CRAFT_FACILITY, XQ.fin (agetD c.furniture_time sale.item_id 0))] []
            hw (by simp [NodupKeys, akeys])
        refine ⟨⟨?_, fun _ => ?_⟩, hcw2⟩
        · rw [facility_minutes_mk]
          exact hn
        · intro f
          rw [facility_minutes_mk, components_mk, item_id_mk, hsum f]
          rw [ha, List.nil_append]
          congr 1
          by_cases hf : f = CRAFT_FACILITY
          · subst hf
            rw [if_pos rfl]
            unfold agetD
            simp [aget]
          · rw [if_neg hf]
            unfold agetD
            simp only [aget]
            rw [if_neg (fun h => hf (Eq.symm h))]
            rfl
      · rw [if_neg h3]
        refine ⟨⟨?_, ?_⟩, hw⟩
        · unfold buildBasicProfile
          rw [facility_minutes_mk]
          simp [NodupKeys, akeys]
        · intro hcat
          unfold buildBasicProfile at hcat
          rw [category_mk] at hcat
          exact absurd hcat h3

theorem computeProfileFuel_wf (c : CalcData) :
    ∀ (fuel : ℕ) (cache : Cache) (stack : List ℕ) (item_id : ℕ), CacheWF c cache →
      (∀ p, (computeProfileFuel c fuel cache stack item_id).1 = some p → ProfileWF c p)
      ∧ CacheWF c (computeProfileFuel c fuel cache stack item_id).2 := by
  intro fuel
  induction fuel with
  | zero =>
      intro cache stack item_id hw
      exact ⟨fun p h => by simp [computeProfileFuel] at h, hw⟩
  | succ fuel ih =>
      intro cache stack item_id hw
      rw [computeProfileFuel_succ]
      cases hc : aget cache item_id with
      | some p =>
          refine ⟨fun p2 h => ?_, hw⟩
          have : p = p2 := by simpa using h
          exact this ▸ hw _ (aget_mem hc)
      | none =>
          simp only
          by_cases hst : item_id ∈ stack
          · rw [if_pos hst]
            exact ⟨fun p h => by simp at h, hw⟩
          · rw [if_neg hst]
            cases hs : aget c.sale_items item_id with
            | none => exact ⟨fun p h => by simp at h, hw⟩
            | some sale =>
                simp only
                obtain ⟨hp, hc2⟩ := buildDispatch_wf c fuel cache stack item_id sale hw ih
                refine ⟨fun p2 h => ?_, cacheWF_aset hc2 hp⟩
                have : (buildDispatch c (computeProfileFuel c fuel) cache stack
                    item_id sale).1 = p2 := by simpa using h
                exact this ▸ hp

/-- C1: for every furniture-category profile returned by `compute_profile`
(from any well-formed cache state, the empty initial cache included, and
well-formedness is preserved), the facility minutes at every facility equal
the item's own craft time — counted under the crafting facility, 0 elsewhere
— plus the sum over components with a resolved profile of that component's
per-unit facility minutes times its quantity. -/
theorem furniture_profile_additive (c : CalcData) (cache : Cache) (item_id : ℕ)
    (hwf : CacheWF c cache) :
    CacheWF c (computeProfile c cache item_id).2
    ∧ ∀ p, (computeProfile c cache item_id).1 = some p → p.category = "furniture" →
        ∀ f : String, agetD p.facility_minutes f (XQ.fin 0)
          = XQ.add
              (if f = CRAFT_FACILITY then XQ.fin (agetD c.furniture_time p.item_id 0)
                else XQ.fin 0)
              (csum (p.components.map (compContrib f))) := by
  have h := computeProfileFuel_wf c (c.sale_items.length + 1) cache [] item_id hwf
  exact ⟨h.2, fun p hp hcat => (h.1 p hp).2 hcat⟩

/-- Witness for C1: a furniture item (craft time 60) requiring 50 units of a
plant material; the additive invariant holds for the computed profile from
the empty cache. -/
theorem furniture_profile_additive_witness :
    CacheWF ⟨⟨[]⟩, [(1, ⟨1, 22, 0, 10, 0, "Bed", "furniture"⟩),
        (3, ⟨3, 34, 0, 2, 0, "Herb", "plant"⟩)], [(3, ⟨1, 3, 120, 120, 1, []⟩)], [],
        [(1, [⟨3, 50⟩])], [(1, 60)], []⟩ []
    ∧ (CacheWF ⟨⟨[]⟩, [(1, ⟨1, 22, 0, 10, 0, "Bed", "furniture"⟩),
          (3, ⟨3, 34, 0, 2, 0, "Herb", "plant"⟩)], [(3, ⟨1, 3, 120, 120, 1, []⟩)], [],
          [(1, [⟨3, 50⟩])], [(1, 60)], []⟩
        (computeProfile ⟨⟨[]⟩, [(1, ⟨1, 22, 0, 10, 0, "Bed", "furniture"⟩),
          (3, ⟨3, 34, 0, 2, 0, "Herb", "plant"⟩)], [(3, ⟨1, 3, 120, 120, 1, []⟩)], [],
          [(1, [⟨3, 50⟩])], [(1, 60)], []⟩ [] 1).2
      ∧ ∀ p, (computeProfile ⟨⟨[]⟩, [(1, ⟨1, 22, 0, 10, 0, "Bed", "furniture"⟩),
          (3, ⟨3, 34, 0, 2, 0, "Herb", "plant"⟩)], [(3, ⟨1, 3, 120, 120, 1, []⟩)], [],
          [(1, [⟨3, 50⟩])], [(1, 60)], []⟩ [] 1).1 = some p → p.category = "furniture" →
          ∀ f : String, agetD p.facility_minutes f (XQ.fin 0)
            = XQ.add
                (if f = CRAFT_FACILITY then
                  XQ.fin (agetD (⟨⟨[]⟩, [(1, ⟨1, 22, 0, 10, 0, "Bed", "furniture"⟩),
                    (3, ⟨3, 34, 0, 2, 0, "Herb", "plant"⟩)], [(3, ⟨1, 3, 120, 120, 1, []⟩)],
                    [], [(1, [⟨3, 50⟩])], [(1, 60)], []⟩ : CalcData).furniture_time
                    p.item_id 0)
                  else XQ.fin 0)
                (csum (p.components.map (compContrib f)))) := by
  have hw : CacheWF ⟨⟨[]⟩, [(1, ⟨1, 22, 0, 10, 0, "Bed", "furniture"⟩),
      (3, ⟨3, 34, 0, 2, 0, "Herb", "plant"⟩)], [(3, ⟨1, 3, 120, 120, 1, []⟩)], [],
      [(1, [⟨3, 50⟩])], [(1, 60)], []⟩ [] := by
    intro kv hmem
    simp at hmem
  exact ⟨hw, furniture_profile_additive _ [] 1 hw⟩

/-! ### C10: non-negative facility minutes -/

theorem agetD_nonneg_of_values {d : FacDict} (h : ∀ kv ∈ d, kv.2.nonneg = true)
    (k : String) : (agetD d k (XQ.fin 0)).nonneg = true := by
  unfold agetD
  cases hg : aget d k with
  | some v => exact h _ (aget_mem hg)
  | none => rfl

theorem addScaled_values_nonneg {q : ℚ} (hq : 0 ≤ q) :
    ∀ (src : List (String × XQ)) (acc : FacDict), (∀ kv ∈ acc, kv.2.nonneg = true) →
      (∀ kv ∈ src, kv.2.nonneg = true) →
      ∀ kv ∈ addScaled acc src q, kv.2.nonneg = true := by
  intro src
  induction src with
  | nil => intro acc ha _ kv hm; exact ha kv hm
  | cons kv0 rest ih =>
      intro acc ha hs kv hm
      have hstep : addScaled acc (kv0 :: rest) q
          = addScaled (aset acc kv0.1 (XQ.add (agetD acc kv0.1 (XQ.fin 0)) (XQ.smul kv0.2 q)))
              rest q := rfl
      rw [hstep] at hm
      refine ih _ ?_ (fun kv2 hm2 => hs kv2 (List.mem_cons_of_mem _ hm2)) kv hm
      intro kv2 hm2
      rcases mem_aset hm2 with h | h
      · exact ha kv2 h
      · rw [h]
        exact XQ.add_nonneg (agetD_nonneg_of_values ha kv0.1)
          (XQ.smul_nonneg (hs kv0 (List.mem_cons_self _ _)) hq)

theorem furnitureFold_nonneg (c : CalcData)
    (recur : Cache → List ℕ → ℕ → Option ProductionProfile × Cache) (stack2 : List ℕ)
    (Hrec : ∀ cache2 jid2, CacheNonneg cache2 →
      (∀ p, (recur cache2 stack2 jid2).1 = some p → ProfileNonneg p)
      ∧ CacheNonneg (recur cache2 stack2 jid2).2) :
    ∀ (mats : List MaterialRequirement) (cache : Cache) (fm : FacDict)
      (comps : List ComponentRequirement), CacheNonneg cache →
      (∀ kv ∈ fm, kv.2.nonneg = true) → (∀ m ∈ mats, 0 ≤ m.quantity) →
      (∀ kv ∈ (furnitureFold c recur stack2 mats cache fm comps).1, kv.2.nonneg = true)
      ∧ CacheNonneg (furnitureFold c recur stack2 mats cache fm comps).2.2 := by
  intro mats
  induction mats with
  | nil => intro cache fm comps hcn hfm _; exact ⟨hfm, hcn⟩
  | cons m rest ih =>
      intro cache fm comps hcn hfm hqs
      obtain ⟨hrcP, hrcC⟩ := Hrec cache m.item_id hcn
      have hq : 0 ≤ m.quantity := hqs m (List.mem_cons_self _ _)
      have hrest : ∀ m2 ∈ rest, 0 ≤ m2.quantity :=
        fun m2 hm2 => hqs m2 (List.mem_cons_of_mem _ hm2)
      cases hrc1 : (recur cache stack2 m.item_id).1 with
      | some qp =>
          rw [furnitureFold_cons_some c recur stack2 m rest cache fm comps qp hrc1]
          exact ih _ _ _ hrcC
            (addScaled_values_nonneg hq _ _ hfm (hrcP qp hrc1)) hrest
      | none =>
          rw [furnitureFold_cons_none c recur stack2 m rest cache fm comps hrc1]
          exact ih _ _ _ hrcC hfm hrest

theorem buildDispatch_nonneg (c : CalcData) (fuel : ℕ) (cache : Cache) (stack : List ℕ)
    (item_id : ℕ) (sale : SaleItem) (hcalc : CalcNonneg c) (hcn : CacheNonneg cache)
    (ih : ∀ (cache2 : Cache) (stack2 : List ℕ) (jid : ℕ), CacheNonneg cache2 →
      (∀ p, (computeProfileFuel c fuel cache2 stack2 jid).1 = some p → ProfileNonneg p)
      ∧ CacheNonneg (computeProfileFuel c fuel cache2 stack2 jid).2) :
    ProfileNonneg (buildDispatch c (computeProfileFuel c fuel) cache stack item_id sale).1
    ∧ CacheNonneg (buildDispatch c (computeProfileFuel c fuel) cache stack item_id sale).2 := by
  unfold buildDispatch
  by_cases h1 : sale.category = "plant"
  · rw [if_pos h1]
    refine ⟨?_, hcn⟩
    unfold buildPlantProfile
    cases hg : aget c.plant_growth sale.item_id with
    | some g =>
        intro kv hm
        rw [facility_minutes_mk] at hm
        rcases List.mem_singleton.mp hm with h
        rw [h]
        exact hcalc.1 _ (aget_mem hg)
    | none => intro kv hm; rw [facility_minutes_mk] at hm; simp at hm
  · rw [if_neg h1]
    by_cases h2 : sale.category = "fish"
    · rw [if_pos h2]
      refine ⟨?_, hcn⟩
      unfold buildFishProfile
      cases hg : aget c.fish_growth sale.item_id with
      | some g =>
          intro kv hm
          rw [facility_minutes_mk] at hm
          rcases List.mem_singleton.mp hm with h
          rw [h]
          exact hcalc.2.1 _ (aget_mem hg)
      | none => intro kv hm; rw [facility_minutes_mk] at hm; simp at hm
    · rw [if_neg h2]
      by_cases h3 : sale.category = "furniture"
      · rw [if_pos h3]
        rw [buildFurnitureProfile_eq]
        have hinit : ∀ kv ∈ [(CRAFT_FACILITY,
            XQ.fin (agetD c.furniture_time sale.item_id 0))], (kv.2 : XQ).nonneg = true := by
          intro kv hm
          rcases List.mem_singleton.mp hm with h
          rw [h]
          show (XQ.fin (agetD c.furniture_time sale.item_id 0)).nonneg = true
          unfold agetD
          cases ht : aget c.furniture_time sale.item_id with
          | some t =>
              simp only [Option.getD_some, XQ.nonneg]
              exact decide_eq_true (hcalc.2.2.1 _ (aget_mem ht))
          | none => rfl
        have hmats : ∀ m ∈ agetD c.furniture_recipes sale.item_id [], 0 ≤ m.quantity := by
          unfold agetD
          cases hr : aget c.furniture_recipes sale.item_id with
          | some mats =>
              simp only [Option.getD_some]
              exact hcalc.2.2.2 _ (aget_mem hr)
          | none => simp
        obtain ⟨hfm, hc2⟩ := furnitureFold_nonneg c (computeProfileFuel c fuel)
          (item_id :: stack) (fun cache2 jid2 hc2 => ih cache2 (item_id :: stack) jid2 hc2)
          (agetD c.furniture_recipes sale.item_id []) cache
          [(CRAFT_FACILITY, XQ.fin (agetD c.furniture_time sale.item_id 0))] []
          hcn hinit hmats
        refine ⟨?_, hc2⟩
        intro kv hm
        rw [facility_minutes_mk] at hm
        exact hfm kv hm
      · rw [if_neg h3]
        refine ⟨?_, hcn⟩
        intro kv hm
        unfold buildBasicProfile at hm
        rw [facility_minutes_mk] at hm
        simp at hm

theorem computeProfileFuel_nonneg (c : CalcData) (hcalc : CalcNonneg c) :
    ∀ (fuel : ℕ) (cache : Cache) (stack : List ℕ) (item_id : ℕ), CacheNonneg cache →
      (∀ p, (computeProfileFuel c fuel cache stack item_id).1 = some p → ProfileNonneg p)
      ∧ CacheNonneg (computeProfileFuel c fuel cache stack item_id).2 := by
  intro fuel
  induction fuel with
  | zero =>
      intro cache stack item_id hcn
      exact ⟨fun p h => by simp [computeProfileFuel] at h, hcn⟩
  | succ fuel ih =>
      intro cache stack item_id hcn
      rw [computeProfileFuel_succ]
      cases hc : aget cache item_id with
      | some p =>
          refine ⟨fun p2 h => ?_, hcn⟩
          have : p = p2 := by simpa using h
          exact this ▸ hcn _ (aget_mem hc)
      | none =>
          simp only
          by_cases hst : item_id ∈ stack
          · rw [if_pos hst]
            exact ⟨fun p h => by simp at h, hcn⟩
          · rw [if_neg hst]
            cases hs : aget c.sale_items item_id with
            | none => exact ⟨fun p h => by simp at h, hcn⟩
            | some sale =>
                simp only
                obtain ⟨hp, hc2⟩ := buildDispatch_nonneg c fuel cache stack item_id sale
                  hcalc hcn ih
                refine ⟨fun p2 h => ?_, ?_⟩
                · have : (buildDispatch c (computeProfileFuel c fuel) cache stack
                      item_id sale).1 = p2 := by simpa using h
                  exact this ▸ hp
                · intro kv hm
                  rcases mem_aset hm with h | h
                  · exact hc2 kv h
                  · rw [h]; exact hp

theorem plantGrowth_minutes_nonneg (g : PlantGrowth) (h : 0 ≤ g.accelerated_time_sec) :
    (PlantGrowth.minutes_per_item g).nonneg = true := by
  unfold PlantGrowth.minutes_per_item
  by_cases hy : g.average_yield ≤ 0
  · rw [if_pos hy]; rfl
  · rw [if_neg hy]
    simp only [XQ.nonneg]
    refine decide_eq_true (div_nonneg ?_ (le_of_lt (not_le.mp hy)))
    unfold PlantGrowth.cycle_minutes
    exact div_nonneg (by exact_mod_cast h) (by norm_num)

theorem fishGrowth_minutes_nonneg (g : FishGrowth) (h : 0 ≤ g.accelerated_time_sec) :
    (FishGrowth.minutes_per_item g).nonneg = true := by
  unfold FishGrowth.minutes_per_item
  by_cases hy : g.yield_per_cycle ≤ 0
  · rw [if_pos hy]; rfl
  · rw [if_neg hy]
    simp only [XQ.nonneg]
    refine decide_eq_true (div_nonneg ?_ (le_of_lt (not_le.mp hy)))
    unfold FishGrowth.cycle_minutes
    exact div_nonneg (by exact_mod_cast h) (by norm_num)

/-- C10 (amended): the loaders clamp the accelerated cycle time below at zero,
so every plant- and fish-growth minutes-per-unit is non-negative (possibly
`+inf`); and for a calculator whose raw craft times and material quantities
are non-negative (as the game data is), every facility-minutes value in every
profile produced by `compute_profile` is non-negative.  Raw furniture craft
times themselves are NOT clamped, which is where the unconditional claim
fails. -/
theorem facility_minutes_nonneg :
    (∀ (entries : List RawPlantEntry) (nutrients : List NutrientEntry),
      ∀ kv ∈ loadPlantGrowth entries nutrients,
        0 ≤ (kv.2 : PlantGrowth).accelerated_time_sec
        ∧ (PlantGrowth.minutes_per_item kv.2).nonneg = true)
    ∧ (∀ (entries : List RawFishEntry) (nutrients : List NutrientEntry)
        (loc : Localization) (sale_items : List (ℕ × SaleItem)),
      ∀ kv ∈ loadFishGrowth entries nutrients loc sale_items,
        0 ≤ (kv.2 : FishGrowth).accelerated_time_sec
        ∧ (FishGrowth.minutes_per_item kv.2).nonneg = true)
    ∧ (∀ (c : CalcData) (cache : Cache) (item_id : ℕ), CalcNonneg c → CacheNonneg cache →
        (∀ p, (computeProfile c cache item_id).1 = some p → ProfileNonneg p)
        ∧ CacheNonneg (computeProfile c cache item_id).2) := by
  refine ⟨?_, ?_, ?_⟩
  · intro entries nutrients kv hm
    obtain ⟨e, _, _, hkv⟩ := loadPlantGrowth_mem entries nutrients kv hm
    have hacc : 0 ≤ kv.2.accelerated_time_sec := by
      rw [hkv]
      exact le_max_left _ _
    exact ⟨hacc, plantGrowth_minutes_nonneg _ hacc⟩
  · intro entries nutrients loc sale_items kv hm
    obtain ⟨nmkv, hmem, heq⟩ := loadFishGrowth_mem entries nutrients loc sale_items kv hm
    obtain ⟨e, _, nm, _, _, hkv⟩ := fishByName_mem entries nutrients loc nmkv hmem
    have hacc : 0 ≤ kv.2.accelerated_time_sec := by
      rw [← heq, hkv]
      exact le_max_left _ _
    exact ⟨hacc, fishGrowth_minutes_nonneg _ hacc⟩
  · intro c cache item_id hcalc hcn
    exact computeProfileFuel_nonneg c hcalc _ cache [] item_id hcn

/-- Witness for C10 (amended): a concrete loader run plus a furniture-only
calculator with non-negative data, at the empty cache. -/
theorem facility_minutes_nonneg_witness :
    ((7, (⟨1, 7, 100, 0, 1, []⟩ : PlantGrowth))
        ∈ loadPlantGrowth [⟨1, 7, [100], "x", []⟩] [⟨0, 600⟩]
      ∧ 0 ≤ (⟨1, 7, 100, 0, 1, []⟩ : PlantGrowth).accelerated_time_sec
      ∧ (PlantGrowth.minutes_per_item ⟨1, 7, 100, 0, 1, []⟩).nonneg = true)
    ∧ (CalcNonneg ⟨⟨[]⟩, [(1, ⟨1, 22, 0, 10, 0, "Bed", "furniture"⟩)], [], [],
        [(1, [⟨1, 2⟩])], [(1, 60)], []⟩
      ∧ CacheNonneg []
      ∧ ((∀ p, (computeProfile ⟨⟨[]⟩, [(1, ⟨1, 22, 0, 10, 0, "Bed", "furniture"⟩)], [], [],
            [(1, [⟨1, 2⟩])], [(1, 60)], []⟩ [] 1).1 = some p → ProfileNonneg p)
          ∧ CacheNonneg (computeProfile ⟨⟨[]⟩, [(1, ⟨1, 22, 0, 10, 0, "Bed", "furniture"⟩)],
            [], [], [(1, [⟨1, 2⟩])], [(1, 60)], []⟩ [] 1).2)) := by
  have hcalc : CalcNonneg ⟨⟨[]⟩, [(1, ⟨1, 22, 0, 10, 0, "Bed", "furniture"⟩)], [], [],
      [(1, [⟨1, 2⟩])], [(1, 60)], []⟩ := by
    refine ⟨?_, ?_, ?_, ?_⟩
    · intro kv hm; simp at hm
    · intro kv hm; simp at hm
    · intro kv hm
      simp only [List.mem_singleton] at hm
      subst hm
      norm_num
    · intro kv hm m hm2
      simp only [List.mem_singleton] at hm
      subst hm
      simp only [List.mem_singleton] at hm2
      subst hm2
      norm_num
  have hcn : CacheNonneg ([] : Cache) := by intro kv hm; simp at hm
  have hmem : (7, (⟨1, 7, 100, 0, 1, []⟩ : PlantGrowth))
      ∈ loadPlantGrowth [⟨1, 7, [100], "x", []⟩] [⟨0, 600⟩] := by
    have h : loadPlantGrowth [⟨1, 7, [100], "x", []⟩] [⟨0, 600⟩]
        = [(7, ⟨1, 7, 100, 0, 1, []⟩)] := rfl
    rw [h]
    exact List.mem_singleton.mpr rfl
  have hload := facility_minutes_nonneg.1 [⟨1, 7, [100], "x", []⟩] [⟨0, 600⟩]
    (7, ⟨1, 7, 100, 0, 1, []⟩) hmem
  exact ⟨⟨hmem, hload.1, hload.2⟩,
    hcalc, hcn, facility_minutes_nonneg.2.2 _ [] 1 hcalc hcn⟩

/-- C10 counterexample: a raw furniture craft time of -5 produces a profile
whose crafting minutes are -5, a negative facility-minutes value — the
unconditional "every facility-minutes value is ≥ 0" fails. -/
theorem negative_craft_time_cex :
    ((computeProfile ⟨⟨[]⟩, [(1, ⟨1, 22, 0, 10, 0, "Bed", "furniture"⟩)], [], [], [],
        [(1, -5)], []⟩ [] 1).1).map ProductionProfile.facility_minutes
      = some [(CRAFT_FACILITY, XQ.fin (-5))]
    ∧ (XQ.fin (-5)).nonneg = false := by
  exact ⟨rfl, by decide⟩

/-! ### C4 and C8: the solved plan -/

instance : LeftCommutative XQ.add := ⟨XQ.add_left_comm⟩

theorem csum_perm {l1 l2 : List XQ} (h : List.Perm l1 l2) : csum l1 = csum l2 :=
  h.foldr_eq _

theorem akeys_scalePos_subset (v : ℚ) :
    ∀ (d : FacDict), ∀ x ∈ akeys (scalePos d v), x ∈ akeys d := by
  intro d
  induction d with
  | nil => intro x hx; exact hx
  | cons kv rest ih =>
      intro x hx
      have hstep : scalePos (kv :: rest) v
          = if kv.2.pos then (kv.1, XQ.smul kv.2 v) :: scalePos rest v
            else scalePos rest v := by
        simp [scalePos, List.filterMap_cons]
        by_cases hp : kv.2.pos <;> simp [hp]
      rw [hstep] at hx
      by_cases hp : kv.2.pos
      · rw [if_pos hp] at hx
        rcases List.mem_cons.mp hx with h | h
        · rw [h]; exact List.mem_cons_self _ _
        · exact List.mem_cons_of_mem _ (ih x h)
      · rw [if_neg hp] at hx
        exact List.mem_cons_of_mem _ (ih x hx)

theorem nodupKeys_scalePos (v : ℚ) :
    ∀ (d : FacDict), NodupKeys d → NodupKeys (scalePos d v) := by
  intro d
  induction d with
  | nil => intro h; exact h
  | cons kv rest ih =>
      intro h
      have h2 : (kv.1 :: akeys rest).Nodup := h
      have hk : kv.1 ∉ akeys rest := (List.nodup_cons.mp h2).1
      have hrest : NodupKeys rest := (List.nodup_cons.mp h2).2
      have hstep : scalePos (kv :: rest) v
          = if kv.2.pos then (kv.1, XQ.smul kv.2 v) :: scalePos rest v
            else scalePos rest v := by
        simp [scalePos, List.filterMap_cons]
        by_cases hp : kv.2.pos <;> simp [hp]
      rw [hstep]
      by_cases hp : kv.2.pos
      · rw [if_pos hp]
        refine List.nodup_cons.mpr ⟨?_, ih hrest⟩
        exact fun hmem => hk (akeys_scalePos_subset v rest _ hmem)
      · rw [if_neg hp]
        exact ih hrest

theorem aget_scalePos (v : ℚ) (f : String) :
    ∀ (d : FacDict), NodupKeys d →
      aget (scalePos d v) f
        = (match aget d f with
            | some m => if m.pos then some (XQ.smul m v) else none
            | none => none) := by
  intro d
  induction d with
  | nil => intro h; rfl
  | cons kv rest ih =>
      intro h
      obtain ⟨k, m⟩ := kv
      have h2 : (k :: akeys rest).Nodup := h
      have hk : k ∉ akeys rest := (List.nodup_cons.mp h2).1
      have hrest : NodupKeys rest := (List.nodup_cons.mp h2).2
      have hstep : scalePos ((k, m) :: rest) v
          = if m.pos then (k, XQ.smul m v) :: scalePos rest v else scalePos rest v := by
        simp [scalePos, List.filterMap_cons]
        by_cases hp : m.pos <;> simp [hp]
      rw [hstep]
      by_cases hf : k = f
      · subst hf
        have hnone : aget (scalePos rest v) k = none :=
          (aget_eq_none_iff _ _).mpr (fun hmem => hk (akeys_scalePos_subset v rest _ hmem))
        by_cases hp : m.pos
        · rw [if_pos hp]
          simp [aget, hp]
        · rw [if_neg hp, hnone]
          rw [show aget ((k, m) :: rest) k = some m from by simp [aget]]
          simp [hp]
      · by_cases hp : m.pos
        · rw [if_pos hp]
          simp only [aget, if_neg hf]
          exact ih hrest
        · rw [if_neg hp]
          simp only [aget, if_neg hf]
          exact ih hrest

theorem agetD_addUsage (f : String) :
    ∀ (iusage : FacDict) (usage : FacDict), NodupKeys iusage →
      agetD (addUsage usage iusage) f (XQ.fin 0)
        = XQ.add (agetD usage f (XQ.fin 0)) (agetD iusage f (XQ.fin 0)) := by
  intro iusage
  induction iusage with
  | nil =>
      intro usage _
      show agetD usage f (XQ.fin 0) = _
      rw [show agetD ([] : FacDict) f (XQ.fin 0) = XQ.fin 0 from rfl, XQ.add_zero]
  | cons kv rest ih =>
      intro usage hnd
      obtain ⟨k, v⟩ := kv
      have h2 : (k :: akeys rest).Nodup := hnd
      have hk : k ∉ akeys rest := (List.nodup_cons.mp h2).1
      have hrest : NodupKeys rest := (List.nodup_cons.mp h2).2
      have hstep : addUsage usage ((k, v) :: rest)
          = addUsage (aset usage k (XQ.add (agetD usage k (XQ.fin 0)) v)) rest := rfl
      rw [hstep, ih _ hrest]
      by_cases hf : k = f
      · subst hf
        rw [show agetD (aset usage k (XQ.add (agetD usage k (XQ.fin 0)) v)) k (XQ.fin 0)
              = XQ.add (agetD usage k (XQ.fin 0)) v from by
            unfold agetD; rw [aget_aset_self]; rfl]
        rw [show agetD rest k (XQ.fin 0) = XQ.fin 0 from by
            unfold agetD; rw [aget_eq_none_iff rest k |>.mpr hk]; rfl]
        rw [show agetD ((k, v) :: rest) k (XQ.fin 0) = v from by
            unfold agetD; simp [aget]]
        rw [XQ.add_zero]
      · rw [show agetD (aset usage k (XQ.add (agetD usage k (XQ.fin 0)) v)) f (XQ.fin 0)
              = agetD usage f (XQ.fin 0) from by
            unfold agetD; rw [aget_aset_ne _ _ _ _ hf]]
        rw [show agetD ((k, v) :: rest) f (XQ.fin 0) = agetD rest f (XQ.fin 0) from by
            unfold agetD; simp [aget, hf]]

theorem agetD_capZero (f : String) :
    ∀ (capacities : List (String × ℚ)),
      agetD (capacities.map (fun fc => (fc.1, XQ.fin 0))) f (XQ.fin 0) = XQ.fin 0 := by
  intro capacities
  induction capacities with
  | nil => rfl
  | cons fc rest ih =>
      unfold agetD
      simp only [List.map_cons, aget]
      by_cases hf : fc.1 = f
      · rw [if_pos hf]
        rfl
      · rw [if_neg hf]
        exact ih

theorem optItemsLoop_cons (bonus : List ℕ) (vals : ℕ → ℚ) (p : ProductionProfile)
    (rest : List ProductionProfile) (items : List OptimizedItem) (usage : FacDict)
    (total : ℚ) :
    optItemsLoop bonus vals (p :: rest) items usage total
      = if vals p.item_id ≤ 1 / 1000000 then optItemsLoop bonus vals rest items usage total
        else
          optItemsLoop bonus vals rest
            (items ++ [⟨p.item_id, p.name, vals p.item_id,
              itemValue bonus p * vals p.item_id, itemMultiplier bonus p,
              scalePos p.facility_minutes (vals p.item_id), p⟩])
            (addUsage usage (scalePos p.facility_minutes (vals p.item_id)))
            (total + itemValue bonus p * vals p.item_id) := rfl

theorem optItemsLoop_spec (bonus : List ℕ) (vals : ℕ → ℚ) :
    ∀ (rest : List ProductionProfile) (items0 : List OptimizedItem) (usage : FacDict)
      (total : ℚ),
      ∃ newItems,
        (optItemsLoop bonus vals rest items0 usage total).1 = items0 ++ newItems
        ∧ (∀ it ∈ newItems, ∃ p ∈ rest,
            it.item_id = p.item_id ∧ it.name = p.name ∧ it.units = vals p.item_id
            ∧ it.multiplier = itemMultiplier bonus p
            ∧ it.astralite = itemValue bonus p * vals p.item_id
            ∧ it.facility_minutes = scalePos p.facility_minutes (vals p.item_id)
            ∧ it.profile = p)
        ∧ ((∀ p ∈ rest, NodupKeys p.facility_minutes) →
            ∀ f, agetD (optItemsLoop bonus vals rest items0 usage total).2.1 f (XQ.fin 0)
              = XQ.add (agetD usage f (XQ.fin 0))
                  (csum (newItems.map (fun it => agetD it.facility_minutes f (XQ.fin 0))))) := by
  intro rest
  induction rest with
  | nil =>
      intro items0 usage total
      refine ⟨[], by simp [optItemsLoop], by simp, fun _ f => ?_⟩
      rw [List.map_nil, csum_nil, XQ.add_zero]
      rfl
  | cons p rest ih =>
      intro items0 usage total
      rw [optItemsLoop_cons]
      by_cases hv : vals p.item_id ≤ 1 / 1000000
      · rw [if_pos hv]
        obtain ⟨newItems, ha, hmem, hsum⟩ := ih items0 usage total
        refine ⟨newItems, ha, ?_, ?_⟩
        · intro it hit
          obtain ⟨q, hq, hrest⟩ := hmem it hit
          exact ⟨q, List.mem_cons_of_mem _ hq, hrest⟩
        · intro hnd f
          exact hsum (fun q hq => hnd q (List.mem_cons_of_mem _ hq)) f
      · rw [if_neg hv]
        obtain ⟨newItems, ha, hmem, hsum⟩ :=
          ih (items0 ++ [⟨p.item_id, p.name, vals p.item_id,
            itemValue bonus p * vals p.item_id, itemMultiplier bonus p,
            scalePos p.facility_minutes (vals p.item_id), p⟩])
            (addUsage usage (scalePos p.facility_minutes (vals p.item_id)))
            (total + itemValue bonus p * vals p.item_id)
        refine ⟨⟨p.item_id, p.name, vals p.item_id,
          itemValue bonus p * vals p.item_id, itemMultiplier bonus p,
          scalePos p.facility_minutes (vals p.item_id), p⟩ :: newItems, ?_, ?_, ?_⟩
        · rw [ha, List.append_assoc, List.singleton_append]
        · intro it hit
          rcases List.mem_cons.mp hit with h | h
          · exact ⟨p, List.mem_cons_self _ _, by rw [h], by rw [h], by rw [h], by rw [h],
              by rw [h], by rw [h], by rw [h]⟩
          · obtain ⟨q, hq, hrest⟩ := hmem it h
            exact ⟨q, List.mem_cons_of_mem _ hq, hrest⟩
        · intro hnd f
          have hp := hnd p (List.mem_cons_self _ _)
          rw [hsum (fun q hq => hnd q (List.mem_cons_of_mem _ hq)) f]
          rw [agetD_addUsage f _ usage (nodupKeys_scalePos _ _ hp)]
          rw [List.map_cons, csum_cons, XQ.add_assoc]

theorem optimisePortfolio_optimal_eq (solver : LpSolver)
    (profiles : List ProductionProfile) (weekly_limit : ℚ)
    (capacities : List (String × ℚ)) (bonus_item_ids : List ℕ)
    (h1 : ¬(weekly_limit ≤ 0 ∨ profiles.isEmpty = true))
    (h2 : ¬(profiles.filter (fun p => decide (0 < p.sale_value))).isEmpty = true)
    (h3 : (solver (portfolioProblem profiles weekly_limit capacities bonus_item_ids)).1 = 1) :
    optimisePortfolio solver profiles weekly_limit capacities bonus_item_ids
      = ⟨(optItemsLoop bonus_item_ids
            (solver (portfolioProblem profiles weekly_limit capacities bonus_item_ids)).2
            (orderedProfiles profiles) []
            (capacities.map (fun fc => (fc.1, XQ.fin 0))) 0).1.insertionSort
            (fun a b => b.astralite ≤ a.astralite),
          (optItemsLoop bonus_item_ids
            (solver (portfolioProblem profiles weekly_limit capacities bonus_item_ids)).2
            (orderedProfiles profiles) []
            (capacities.map (fun fc => (fc.1, XQ.fin 0))) 0).2.2,
          (optItemsLoop bonus_item_ids
            (solver (portfolioProblem profiles weekly_limit capacities bonus_item_ids)).2
            (orderedProfiles profiles) []
            (capacities.map (fun fc => (fc.1, XQ.fin 0))) 0).2.1,
          lpStatusString
            (solver (portfolioProblem profiles weekly_limit capacities bonus_item_ids)).1⟩ := by
  unfold optimisePortfolio
  rw [if_neg h1, if_neg h2, if_pos h3]

/-- C8: when the solve status is Optimal, the reported facility usage at each
facility equals the sum over the returned items of that item's reported
facility minutes, which themselves are exactly the profile's strictly
positive per-unit minutes scaled by the solved quantity — recomputed from the
profiles for any solver values whatsoever. -/
theorem optimal_result_recomputed_usage (solver : LpSolver)
    (profiles : List ProductionProfile) (weekly_limit : ℚ)
    (capacities : List (String × ℚ)) (bonus_item_ids : List ℕ)
    (h1 : ¬(weekly_limit ≤ 0 ∨ profiles.isEmpty = true))
    (h2 : ¬(profiles.filter (fun p => decide (0 < p.sale_value))).isEmpty = true)
    (h3 : (solver (portfolioProblem profiles weekly_limit capacities bonus_item_ids)).1 = 1)
    (hnd : ∀ p ∈ profiles, NodupKeys p.facility_minutes) :
    (optimisePortfolio solver profiles weekly_limit capacities bonus_item_ids).status
      = "Optimal"
    ∧ (∀ f, agetD (optimisePortfolio solver profiles weekly_limit capacities
          bonus_item_ids).facility_usage f (XQ.fin 0)
        = csum ((optimisePortfolio solver profiles weekly_limit capacities
            bonus_item_ids).items.map (fun it => agetD it.facility_minutes f (XQ.fin 0))))
    ∧ (∀ it ∈ (optimisePortfolio solver profiles weekly_limit capacities
          bonus_item_ids).items,
        it.facility_minutes = scalePos it.profile.facility_minutes it.units
        ∧ it.units = (solver (portfolioProblem profiles weekly_limit capacities
            bonus_item_ids)).2 it.item_id
        ∧ ∀ f, aget it.facility_minutes f
            = (match aget it.profile.facility_minutes f with
                | some m => if m.pos then some (XQ.smul m it.units) else none
                | none => none)) := by
  have hndo : ∀ p ∈ orderedProfiles profiles, NodupKeys p.facility_minutes := by
    intro p hp
    exact hnd p (List.mem_filter.mp hp).1
  obtain ⟨newItems, ha, hmem, hsum⟩ :=
    optItemsLoop_spec bonus_item_ids
      (solver (portfolioProblem profiles weekly_limit capacities bonus_item_ids)).2
      (orderedProfiles profiles) [] (capacities.map (fun fc => (fc.1, XQ.fin 0))) 0
  rw [List.nil_append] at ha
  rw [optimisePortfolio_optimal_eq solver profiles weekly_limit capacities bonus_item_ids
    h1 h2 h3]
  have hperm : List.Perm ((optItemsLoop bonus_item_ids
      (solver (portfolioProblem profiles weekly_limit capacities bonus_item_ids)).2
      (orderedProfiles profiles) []
      (capacities.map (fun fc => (fc.1, XQ.fin 0))) 0).1.insertionSort
        (fun a b => b.astralite ≤ a.astralite))
      newItems := by
    rw [← ha]
    exact List.perm_insertionSort _ _
  refine ⟨by rw [h3]; rfl, ?_, ?_⟩
  · intro f
    show agetD (optItemsLoop bonus_item_ids
        (solver (portfolioProblem profiles weekly_limit capacities bonus_item_ids)).2
        (orderedProfiles profiles) []
        (capacities.map (fun fc => (fc.1, XQ.fin 0))) 0).2.1 f (XQ.fin 0) = _
    rw [hsum hndo f, agetD_capZero, XQ.zero_add]
    exact (csum_perm (hperm.map _)).symm
  · intro it hit
    have hit2 : it ∈ newItems := hperm.mem_iff.mp hit
    obtain ⟨p, hp, hid, _, hunits, _, _, hfm, hprof⟩ := hmem it hit2
    refine ⟨by rw [hfm, hprof, hunits], by rw [hunits, hid], ?_⟩
    intro f
    rw [hfm, hprof, hunits]
    exact aget_scalePos _ f _ (hndo p hp)

/-- Witness for C8: a one-item portfolio solved optimally by a constant
solver; all hypotheses discharged concretely. -/
theorem optimal_result_recomputed_usage_witness :
    ¬((100 : ℚ) ≤ 0 ∨ ([ProductionProfile.mk 5 "x" 10 0 0 "plant"
        [(PLANT_FACILITY, XQ.fin 2)] [] []] : List ProductionProfile).isEmpty = true)
    ∧ ¬(([ProductionProfile.mk 5 "x" 10 0 0 "plant" [(PLANT_FACILITY, XQ.fin 2)] [] []].filter
        (fun p => decide (0 < p.sale_value))).isEmpty = true)
    ∧ ((fun _ : LpProblemData => ((1 : ℤ), fun _ : ℕ => (1 : ℚ))) (portfolioProblem
        [ProductionProfile.mk 5 "x" 10 0 0 "plant" [(PLANT_FACILITY, XQ.fin 2)] [] []]
        100 [(PLANT_FACILITY, 100)] [])).1 = 1
    ∧ (optimisePortfolio (fun _ : LpProblemData => ((1 : ℤ), fun _ : ℕ => (1 : ℚ)))
        [ProductionProfile.mk 5 "x" 10 0 0 "plant" [(PLANT_FACILITY, XQ.fin 2)] [] []]
        100 [(PLANT_FACILITY, 100)] []).status = "Optimal" := by
  have h1 : ¬((100 : ℚ) ≤ 0 ∨ ([ProductionProfile.mk 5 "x" 10 0 0 "plant"
      [(PLANT_FACILITY, XQ.fin 2)] [] []] : List ProductionProfile).isEmpty = true) := by
    intro h
    rcases h with h | h
    · norm_num at h
    · simp at h
  have h2 : ¬(([ProductionProfile.mk 5 "x" 10 0 0 "plant"
      [(PLANT_FACILITY, XQ.fin 2)] [] []].filter
      (fun p => decide (0 < p.sale_value))).isEmpty = true) := by
    rw [show [ProductionProfile.mk 5 "x" 10 0 0 "plant" [(PLANT_FACILITY, XQ.fin 2)] [] []].filter
        (fun p => decide (0 < p.sale_value))
      = [ProductionProfile.mk 5 "x" 10 0 0 "plant" [(PLANT_FACILITY, XQ.fin 2)] [] []] from rfl]
    simp
  have h3 : ((fun _ : LpProblemData => ((1 : ℤ), fun _ : ℕ => (1 : ℚ))) (portfolioProblem
      [ProductionProfile.mk 5 "x" 10 0 0 "plant" [(PLANT_FACILITY, XQ.fin 2)] [] []]
      100 [(PLANT_FACILITY, 100)] [])).1 = 1 := rfl
  have hnd : ∀ p ∈ [ProductionProfile.mk 5 "x" 10 0 0 "plant"
      [(PLANT_FACILITY, XQ.fin 2)] [] []], NodupKeys p.facility_minutes := by
    intro p hp
    simp only [List.mem_singleton] at hp
    subst hp
    simp [NodupKeys, akeys, facility_minutes_mk]
  exact ⟨h1, h2, h3,
    (optimal_result_recomputed_usage (fun _ : LpProblemData => ((1 : ℤ), fun _ : ℕ => (1 : ℚ)))
      [ProductionProfile.mk 5 "x" 10 0 0 "plant" [(PLANT_FACILITY, XQ.fin 2)] [] []]
      100 [(PLANT_FACILITY, 100)] [] h1 h2 h3 hnd).1⟩

/-- C4 (amended): `optimise_portfolio` honours every id in its bonus set; the
API layer truncates to the first four (`set(payload.bonus_item_ids[:4])`), so
when the optimizer is called through the API exactly the items whose id is
among the first four entries of `bonus_item_ids` get multiplier 1.2 — in both
the objective coefficients and the reported multiplier — and all other items
get 1.0. -/
theorem bonus_multiplier_first_four (solver : LpSolver)
    (profiles : List ProductionProfile) (weekly_limit : ℚ)
    (capacities : List (String × ℚ)) (bonus_item_ids : List ℕ) :
    (∀ it ∈ (optimisePortfolio solver profiles weekly_limit capacities
        (apiBonusIds bonus_item_ids)).items,
      it.multiplier = (if it.item_id ∈ bonus_item_ids.take 4 then (6 / 5 : ℚ) else 1)
      ∧ it.astralite = it.profile.sale_value * it.multiplier * it.units)
    ∧ (portfolioProblem profiles weekly_limit capacities
        (apiBonusIds bonus_item_ids)).objective
      = (orderedProfiles profiles).map
          (fun p => (p.sale_value * (if p.item_id ∈ bonus_item_ids.take 4 then (6 / 5 : ℚ)
            else 1), p.item_id)) := by
  constructor
  · intro it hit
    by_cases h1 : weekly_limit ≤ 0 ∨ profiles.isEmpty = true
    · rw [show optimisePortfolio solver profiles weekly_limit capacities
          (apiBonusIds bonus_item_ids) = ⟨[], 0, [], "No capacity"⟩ from by
        unfold optimisePortfolio; rw [if_pos h1]] at hit
      simp at hit
    · by_cases h2 : (profiles.filter (fun p => decide (0 < p.sale_value))).isEmpty = true
      · rw [show optimisePortfolio solver profiles weekly_limit capacities
            (apiBonusIds bonus_item_ids) = ⟨[], 0, [], "No variables"⟩ from by
          unfold optimisePortfolio; rw [if_neg h1, if_pos h2]] at hit
        simp at hit
      · by_cases h3 : (solver (portfolioProblem profiles weekly_limit capacities
            (apiBonusIds bonus_item_ids))).1 = 1
        · rw [optimisePortfolio_optimal_eq solver profiles weekly_limit capacities
            (apiBonusIds bonus_item_ids) h1 h2 h3] at hit
          obtain ⟨newItems, ha, hmem, _⟩ :=
            optItemsLoop_spec (apiBonusIds bonus_item_ids)
              (solver (portfolioProblem profiles weekly_limit capacities
                (apiBonusIds bonus_item_ids))).2
              (orderedProfiles profiles) []
              (capacities.map (fun fc => (fc.1, XQ.fin 0))) 0
          rw [List.nil_append] at ha
          have hit2 : it ∈ newItems := by
            rw [ha] at hit
            exact (List.perm_insertionSort
              (fun a b : OptimizedItem => b.astralite ≤ a.astralite) newItems).mem_iff.mp hit
          obtain ⟨p, _, hid, _, hunits, hmult, hastr, _, hprof⟩ := hmem it hit2
          constructor
          · rw [hmult, hid]
            rfl
          · rw [hastr, hprof, hunits, hmult]
            rfl
        · rw [show optimisePortfolio solver profiles weekly_limit capacities
              (apiBonusIds bonus_item_ids)
            = ⟨[], 0, [], lpStatusString (solver (portfolioProblem profiles weekly_limit
                capacities (apiBonusIds bonus_item_ids))).1⟩ from by
            unfold optimisePortfolio; rw [if_neg h1, if_neg h2, if_neg h3]] at hit
          simp at hit
  · rfl

/-- Witness for C4 (amended): through the API truncation (`bonus_item_ids[:4]`),
the single profile with id 5 and bonus list `[5]` is returned with multiplier
1.2 and the matching Astralite value. -/
theorem bonus_multiplier_first_four_witness :
    ∃ it, it ∈ (optimisePortfolio (fun _ : LpProblemData => ((1 : ℤ), fun _ : ℕ => (1 : ℚ)))
        [ProductionProfile.mk 5 "x" 10 0 0 "other" [] [] []] 100 [] (apiBonusIds [5])).items
      ∧ it.multiplier = (if it.item_id ∈ [5].take 4 then (6 / 5 : ℚ) else 1)
      ∧ it.astralite = it.profile.sale_value * it.multiplier * it.units := by
  have h1 : ¬((100 : ℚ) ≤ 0 ∨ ([ProductionProfile.mk 5 "x" 10 0 0 "other" [] [] []]
      : List ProductionProfile).isEmpty = true) := by
    intro h
    rcases h with h | h
    · norm_num at h
    · simp at h
  have h2 : ¬(([ProductionProfile.mk 5 "x" 10 0 0 "other" [] [] []].filter
      (fun p => decide (0 < p.sale_value))).isEmpty = true) := by
    rw [show [ProductionProfile.mk 5 "x" 10 0 0 "other" [] [] []].filter
        (fun p => decide (0 < p.sale_value))
      = [ProductionProfile.mk 5 "x" 10 0 0 "other" [] [] []] from rfl]
    simp
  have h3 : ((fun _ : LpProblemData => ((1 : ℤ), fun _ : ℕ => (1 : ℚ))) (portfolioProblem
      [ProductionProfile.mk 5 "x" 10 0 0 "other" [] [] []] 100 [] (apiBonusIds [5]))).1
      = 1 := rfl
  have hitems : (optimisePortfolio (fun _ : LpProblemData => ((1 : ℤ), fun _ : ℕ => (1 : ℚ)))
      [ProductionProfile.mk 5 "x" 10 0 0 "other" [] [] []] 100 [] (apiBonusIds [5])).items
      = [⟨5, "x", 1,
          itemValue (apiBonusIds [5]) (ProductionProfile.mk 5 "x" 10 0 0 "other" [] [] []) * 1,
          itemMultiplier (apiBonusIds [5]) (ProductionProfile.mk 5 "x" 10 0 0 "other" [] [] []),
          scalePos [] 1, ProductionProfile.mk 5 "x" 10 0 0 "other" [] [] []⟩] := by
    rw [optimisePortfolio_optimal_eq _ _ _ _ _ h1 h2 h3]
    rw [show orderedProfiles [ProductionProfile.mk 5 "x" 10 0 0 "other" [] [] []]
        = [ProductionProfile.mk 5 "x" 10 0 0 "other" [] [] []] from rfl]
    rw [optItemsLoop_cons]
    rw [if_neg (by norm_num)]
    rfl
  have hmem : (⟨5, "x", 1,
      itemValue (apiBonusIds [5]) (ProductionProfile.mk 5 "x" 10 0 0 "other" [] [] []) * 1,
      itemMultiplier (apiBonusIds [5]) (ProductionProfile.mk 5 "x" 10 0 0 "other" [] [] []),
      scalePos [] 1, ProductionProfile.mk 5 "x" 10 0 0 "other" [] [] []⟩ : OptimizedItem)
      ∈ (optimisePortfolio (fun _ : LpProblemData => ((1 : ℤ), fun _ : ℕ => (1 : ℚ)))
        [ProductionProfile.mk 5 "x" 10 0 0 "other" [] [] []] 100 []
        (apiBonusIds [5])).items := by
    rw [hitems]
    exact List.mem_singleton.mpr rfl
  exact ⟨_, hmem, (bonus_multiplier_first_four
    (fun _ : LpProblemData => ((1 : ℤ), fun _ : ℕ => (1 : ℚ)))
    [ProductionProfile.mk 5 "x" 10 0 0 "other" [] [] []] 100 [] [5]).1 _ hmem⟩

/-- C4 counterexample: called directly (not through the API layer), the
optimizer honours the fifth bonus id too — the item with id 5 reports
multiplier 1.2 although 5 is not among the first four entries of
`bonus_item_ids`, contradicting the claim about every call. -/
theorem fifth_bonus_id_honoured :
    ((optimisePortfolio (fun _ : LpProblemData => ((1 : ℤ), fun _ : ℕ => (1 : ℚ)))
        [ProductionProfile.mk 5 "x" 10 0 0 "other" [] [] []] 100 []
        [1, 2, 3, 4, 5]).items.map (fun it => (it.item_id, it.multiplier)))
      = [(5, (6 / 5 : ℚ))]
    ∧ (5 : ℕ) ∉ [1, 2, 3, 4, 5].take 4 := by
  constructor
  · have h1 : ¬((100 : ℚ) ≤ 0 ∨ ([ProductionProfile.mk 5 "x" 10 0 0 "other" [] [] []]
        : List ProductionProfile).isEmpty = true) := by
      intro h
      rcases h with h | h
      · norm_num at h
      · simp at h
    have h2 : ¬(([ProductionProfile.mk 5 "x" 10 0 0 "other" [] [] []].filter
        (fun p => decide (0 < p.sale_value))).isEmpty = true) := by
      rw [show [ProductionProfile.mk 5 "x" 10 0 0 "other" [] [] []].filter
          (fun p => decide (0 < p.sale_value))
        = [ProductionProfile.mk 5 "x" 10 0 0 "other" [] [] []] from rfl]
      simp
    have h3 : ((fun _ : LpProblemData => ((1 : ℤ), fun _ : ℕ => (1 : ℚ))) (portfolioProblem
        [ProductionProfile.mk 5 "x" 10 0 0 "other" [] [] []] 100 []
        [1, 2, 3, 4, 5])).1 = 1 := rfl
    rw [optimisePortfolio_optimal_eq _ _ _ _ _ h1 h2 h3]
    rw [show orderedProfiles [ProductionProfile.mk 5 "x" 10 0 0 "other" [] [] []]
        = [ProductionProfile.mk 5 "x" 10 0 0 "other" [] [] []] from rfl]
    rw [optItemsLoop_cons]
    rw [if_neg (by norm_num)]
    rfl
  · decide

/-! ### Adequacy of the fuel parameter

The recursion depth of `_compute_profile` is bounded by the number of sale
items not yet on the in-progress stack, so above that bound the fuel value is
irrelevant: the fuelled function is the function the Python recursion
computes. -/

theorem furnitureFold_congr (c : CalcData)
    (recur1 recur2 : Cache → List ℕ → ℕ → Option ProductionProfile × Cache)
    (stack2 : List ℕ) (h : ∀ cache jid, recur1 cache stack2 jid = recur2 cache stack2 jid) :
    ∀ (mats : List MaterialRequirement) (cache : Cache) (fm : FacDict)
      (comps : List ComponentRequirement),
      furnitureFold c recur1 stack2 mats cache fm comps
        = furnitureFold c recur2 stack2 mats cache fm comps := by
  intro mats
  induction mats with
  | nil => intro cache fm comps; rfl
  | cons m rest ih =>
      intro cache fm comps
      show furnitureFold c recur1 stack2 rest (recur1 cache stack2 m.item_id).2 _ _ = _
      rw [h cache m.item_id]
      exact ih _ _ _

theorem buildDispatch_congr (c : CalcData)
    (recur1 recur2 : Cache → List ℕ → ℕ → Option ProductionProfile × Cache)
    (cache : Cache) (stack : List ℕ) (item_id : ℕ) (sale : SaleItem)
    (h : ∀ cache2 jid, recur1 cache2 (item_id :: stack) jid
      = recur2 cache2 (item_id :: stack) jid) :
    buildDispatch c recur1 cache stack item_id sale
      = buildDispatch c recur2 cache stack item_id sale := by
  unfold buildDispatch
  by_cases h1 : sale.category = "plant"
  · rw [if_pos h1, if_pos h1]
  · rw [if_neg h1, if_neg h1]
    by_cases h2 : sale.category = "fish"
    · rw [if_pos h2, if_pos h2]
    · rw [if_neg h2, if_neg h2]
      by_cases h3 : sale.category = "furniture"
      · rw [if_pos h3, if_pos h3]
        rw [buildFurnitureProfile_eq, buildFurnitureProfile_eq,
          furnitureFold_congr c recur1 recur2 (item_id :: stack) h]
      · rw [if_neg h3, if_neg h3]

theorem freeKeys_cons (c : CalcData) (stack : List ℕ) (item_id : ℕ) :
    freeKeys c (item_id :: stack) = (freeKeys c stack).erase item_id := by
  unfold freeKeys
  ext x
  simp only [Finset.mem_filter, Finset.mem_erase, List.mem_cons]
  constructor
  · rintro ⟨hx, hnm⟩
    push_neg at hnm
    exact ⟨hnm.1, hx, hnm.2⟩
  · rintro ⟨hne, hx, hns⟩
    exact ⟨hx, by push_neg; exact ⟨hne, hns⟩⟩

theorem mem_freeKeys_of_sale (c : CalcData) {stack : List ℕ} {item_id : ℕ} {sale : SaleItem}
    (hs : aget c.sale_items item_id = some sale) (hst : item_id ∉ stack) :
    item_id ∈ freeKeys c stack := by
  unfold freeKeys
  refine Finset.mem_filter.mpr ⟨?_, by simpa using hst⟩
  rw [List.mem_toFinset, List.mem_map]
  exact ⟨(item_id, sale), aget_mem hs, rfl⟩

theorem computeProfileFuel_step_agree (c : CalcData) :
    ∀ (fuel : ℕ) (cache : Cache) (stack : List ℕ) (item_id : ℕ),
      (freeKeys c stack).card < fuel →
      computeProfileFuel c fuel cache stack item_id
        = computeProfileFuel c (fuel + 1) cache stack item_id := by
  intro fuel
  induction fuel with
  | zero => intro cache stack item_id h; exact absurd h (by simp)
  | succ fuel ih =>
      intro cache stack item_id hcard
      rw [computeProfileFuel_succ c fuel, computeProfileFuel_succ c (fuel + 1)]
      cases hc : aget cache item_id with
      | some p => rfl
      | none =>
          simp only
          by_cases hst : item_id ∈ stack
          · rw [if_pos hst, if_pos hst]
          · rw [if_neg hst, if_neg hst]
            cases hs : aget c.sale_items item_id with
            | none => rfl
            | some sale =>
                simp only
                rw [buildDispatch_congr c (computeProfileFuel c fuel)
                  (computeProfileFuel c (fuel + 1)) cache stack item_id sale]
                intro cache2 jid
                apply ih
                rw [freeKeys_cons]
                have hmem := mem_freeKeys_of_sale c hs hst
                have := Finset.card_erase_of_mem hmem
                rw [this]
                have hpos : 0 < (freeKeys c stack).card := Finset.card_pos.mpr ⟨_, hmem⟩
                omega

theorem computeProfileFuel_fuel_irrelevant (c : CalcData) (cache : Cache)
    (stack : List ℕ) (item_id : ℕ) (fuel1 fuel2 : ℕ)
    (h1 : (freeKeys c stack).card < fuel1) (h2 : (freeKeys c stack).card < fuel2) :
    computeProfileFuel c fuel1 cache stack item_id
      = computeProfileFuel c fuel2 cache stack item_id := by
  have step : ∀ (n d : ℕ), (freeKeys c stack).card < n →
      computeProfileFuel c n cache stack item_id
        = computeProfileFuel c (n + d) cache stack item_id := by
    intro n d
    induction d with
    | zero => intro _; rfl
    | succ d ihd =>
        intro hn
        rw [ihd hn, show n + (d + 1) = (n + d) + 1 from rfl]
        exact computeProfileFuel_step_agree c (n + d) cache stack item_id
          (lt_of_lt_of_le hn (by omega))
  rcases le_total fuel1 fuel2 with h | h
  · have := step fuel1 (fuel2 - fuel1) h1
    rw [this, show fuel1 + (fuel2 - fuel1) = fuel2 from by omega]
  · have := step fuel2 (fuel1 - fuel2) h2
    rw [this, show fuel2 + (fuel1 - fuel2) = fuel1 from by omega]

theorem computeProfile_fuel_sufficient (c : CalcData) (cache : Cache) (item_id : ℕ)
    (fuel : ℕ) (h : (freeKeys c []).card < fuel) :
    computeProfileFuel c fuel cache [] item_id = computeProfile c cache item_id := by
  unfold computeProfile
  refine computeProfileFuel_fuel_irrelevant c cache [] item_id fuel
    (c.sale_items.length + 1) h ?_
  have h1 : (freeKeys c []).card ≤ (c.sale_items.map Prod.fst).toFinset.card :=
    Finset.card_filter_le _ _
  have h2 : (c.sale_items.map Prod.fst).toFinset.card ≤ (c.sale_items.map Prod.fst).length :=
    (c.sale_items.map Prod.fst).toFinset_card_le
  rw [List.length_map] at h2
  omega

end Astralite
